import Mathlib

/-!
Verification of the retrieval-and-orchestration pipeline of the RNA-Factory
repository (`app/copilot/copilot.py`, `app/copilot/rag.py`,
`app/copilot/agent.py`).  External collaborators (the language-model
completion service, the ChromaDB vector store, the sentence/CLIP embedders,
the regular-expression engine, the HTTP client and the clock) are modelled
as explicit oracle parameters; everything else is translated directly from
the Python source.  Rational numbers stand in for Python floats, lists of
key/value pairs with single-key insertion stand in for Python dicts.
-/

/-! ### Conversation memory (`RNADesignAssistant._add_to_memory`) -/

/-- One entry of `self.conversation_memory`: the dict
`{"user": ..., "assistant": ..., "timestamp": ...}`. -/
structure MemoryEntry where
  user : String
  assistant : String
  timestamp : String
deriving DecidableEq, Repr

/-- `self.max_memory_length = 10` from `RNADesignAssistant.__init__`. -/
def maxMemoryLength : Nat := 10

/-- `RNADesignAssistant._add_to_memory`: append the exchange, then keep only
the last `max_memory_length` entries (`self.conversation_memory[-10:]`).
The timestamp is an oracle argument standing for `datetime.now().isoformat()`. -/
def addToMemory (mem : List MemoryEntry) (userMessage aiResponse timestamp : String) :
    List MemoryEntry :=
  let m := mem ++ [⟨userMessage, aiResponse, timestamp⟩]
  if maxMemoryLength < m.length then m.drop (m.length - maxMemoryLength) else m

/-- Folding `_add_to_memory` over a whole sequence of exchanges. -/
def addAllToMemory (mem : List MemoryEntry) (entries : List MemoryEntry) :
    List MemoryEntry :=
  entries.foldl (fun m e => addToMemory m e.user e.assistant e.timestamp) mem

/-- The truncation step of `_add_to_memory` in isolation: keep the last
`max_memory_length` entries when the buffer is over capacity. -/
def capMemory (m : List MemoryEntry) : List MemoryEntry :=
  if maxMemoryLength < m.length then m.drop (m.length - maxMemoryLength) else m

theorem addToMemory_eq_capMemory (mem : List MemoryEntry) (u a t : String) :
    addToMemory mem u a t = capMemory (mem ++ [⟨u, a, t⟩]) := rfl

theorem capMemory_eq_drop (m : List MemoryEntry) :
    capMemory m = m.drop (m.length - maxMemoryLength) := by
  by_cases h : maxMemoryLength < m.length
  · simp [capMemory, h]
  · have h0 : m.length - maxMemoryLength = 0 := by omega
    simp [capMemory, h, h0]

theorem capMemory_eq_reverse_take (m : List MemoryEntry) :
    capMemory m = (m.reverse.take maxMemoryLength).reverse := by
  rw [capMemory_eq_drop, List.take_reverse, List.reverse_reverse]

theorem capMemory_append (x y : List MemoryEntry) :
    capMemory (capMemory x ++ y) = capMemory (x ++ y) := by
  rw [capMemory_eq_reverse_take (capMemory x ++ y), capMemory_eq_reverse_take (x ++ y),
    List.reverse_append, List.reverse_append, capMemory_eq_reverse_take x,
    List.reverse_reverse, List.take_append_eq_append_take,
    List.take_append_eq_append_take, List.take_take]
  congr 3
  omega

theorem length_capMemory_le (m : List MemoryEntry) :
    (capMemory m).length ≤ maxMemoryLength ∨ (capMemory m).length = m.length := by
  by_cases h : maxMemoryLength < m.length
  · left
    simp only [capMemory, h, if_true, List.length_drop]
    omega
  · right
    simp [capMemory, h]

theorem length_addToMemory_le (mem : List MemoryEntry) (u a t : String) :
    (addToMemory mem u a t).length ≤ maxMemoryLength ∨
      (addToMemory mem u a t).length = mem.length + 1 := by
  rcases length_capMemory_le (mem ++ [⟨u, a, t⟩]) with h | h
  · left
    rw [addToMemory_eq_capMemory]
    exact h
  · right
    rw [addToMemory_eq_capMemory, h]
    simp

theorem addAllToMemory_eq_capMemory (mem : List MemoryEntry)
    (entries : List MemoryEntry) (hne : entries ≠ []) :
    addAllToMemory mem entries = capMemory (mem ++ entries) := by
  induction entries generalizing mem with
  | nil => exact absurd rfl hne
  | cons e es ih =>
    by_cases hes : es = []
    · subst hes
      simp [addAllToMemory, addToMemory_eq_capMemory]
    · have step : addAllToMemory mem (e :: es) =
          addAllToMemory (capMemory (mem ++ [⟨e.user, e.assistant, e.timestamp⟩])) es := by
        simp [addAllToMemory, addToMemory_eq_capMemory]
      rw [step, ih _ hes, capMemory_append]
      congr 1
      simp

/-- **C4.** Memory eviction: appending `maxMemoryLength + 1` entries leaves
exactly the newest `maxMemoryLength` entries in append order, the oldest
entry is gone, and one `_add_to_memory` step never leaves the buffer longer
than `maxMemoryLength`. -/
theorem memory_eviction (mem : List MemoryEntry) (e0 : MemoryEntry)
    (rest : List MemoryEntry) (m : List MemoryEntry) (u a t : String)
    (hlen : rest.length = maxMemoryLength) (hnot : e0 ∉ rest) :
    addAllToMemory mem (e0 :: rest) = rest ∧
    e0 ∉ addAllToMemory mem (e0 :: rest) ∧
    (addToMemory m u a t).length ≤ maxMemoryLength := by
  have hmain : addAllToMemory mem (e0 :: rest) = rest := by
    rw [addAllToMemory_eq_capMemory _ _ (by simp), capMemory_eq_drop]
    have h1 : (mem ++ e0 :: rest).length - maxMemoryLength = (mem ++ [e0]).length := by
      simp only [List.length_append, List.length_cons, List.length_nil, hlen]
      omega
    have h2 : mem ++ e0 :: rest = (mem ++ [e0]) ++ rest := by simp
    rw [h1, h2, List.drop_left]
  refine ⟨hmain, ?_, ?_⟩
  · rw [hmain]
    exact hnot
  · rw [addToMemory_eq_capMemory]
    by_cases h : maxMemoryLength < (m ++ [(⟨u, a, t⟩ : MemoryEntry)]).length
    · simp only [capMemory, h, if_true, List.length_drop]
      omega
    · simp only [capMemory, h, if_false]
      simp only [List.length_append, List.length_cons, List.length_nil,
        not_lt] at h ⊢
      omega

/-- Witness for C4: eleven concrete appends to an initially empty buffer. -/
theorem memory_eviction_witness :
    ([⟨"u1", "a", "t"⟩, ⟨"u2", "a", "t"⟩, ⟨"u3", "a", "t"⟩, ⟨"u4", "a", "t"⟩,
      ⟨"u5", "a", "t"⟩, ⟨"u6", "a", "t"⟩, ⟨"u7", "a", "t"⟩, ⟨"u8", "a", "t"⟩,
      ⟨"u9", "a", "t"⟩, ⟨"u10", "a", "t"⟩] : List MemoryEntry).length = maxMemoryLength ∧
    (⟨"u0", "a", "t"⟩ : MemoryEntry) ∉
      ([⟨"u1", "a", "t"⟩, ⟨"u2", "a", "t"⟩, ⟨"u3", "a", "t"⟩, ⟨"u4", "a", "t"⟩,
        ⟨"u5", "a", "t"⟩, ⟨"u6", "a", "t"⟩, ⟨"u7", "a", "t"⟩, ⟨"u8", "a", "t"⟩,
        ⟨"u9", "a", "t"⟩, ⟨"u10", "a", "t"⟩] : List MemoryEntry) ∧
    (addAllToMemory [] (⟨"u0", "a", "t"⟩ ::
        [⟨"u1", "a", "t"⟩, ⟨"u2", "a", "t"⟩, ⟨"u3", "a", "t"⟩, ⟨"u4", "a", "t"⟩,
         ⟨"u5", "a", "t"⟩, ⟨"u6", "a", "t"⟩, ⟨"u7", "a", "t"⟩, ⟨"u8", "a", "t"⟩,
         ⟨"u9", "a", "t"⟩, ⟨"u10", "a", "t"⟩]) =
      [⟨"u1", "a", "t"⟩, ⟨"u2", "a", "t"⟩, ⟨"u3", "a", "t"⟩, ⟨"u4", "a", "t"⟩,
       ⟨"u5", "a", "t"⟩, ⟨"u6", "a", "t"⟩, ⟨"u7", "a", "t"⟩, ⟨"u8", "a", "t"⟩,
       ⟨"u9", "a", "t"⟩, ⟨"u10", "a", "t"⟩] ∧
     (⟨"u0", "a", "t"⟩ : MemoryEntry) ∉ addAllToMemory []
        (⟨"u0", "a", "t"⟩ ::
          [⟨"u1", "a", "t"⟩, ⟨"u2", "a", "t"⟩, ⟨"u3", "a", "t"⟩, ⟨"u4", "a", "t"⟩,
           ⟨"u5", "a", "t"⟩, ⟨"u6", "a", "t"⟩, ⟨"u7", "a", "t"⟩, ⟨"u8", "a", "t"⟩,
           ⟨"u9", "a", "t"⟩, ⟨"u10", "a", "t"⟩]) ∧
     (addToMemory [] "u" "a" "t").length ≤ maxMemoryLength) :=
  ⟨by decide, by decide,
    memory_eviction [] ⟨"u0", "a", "t"⟩ _ [] "u" "a" "t" (by decide) (by decide)⟩

/-! ### Query classification (`RNADesignAssistant._classify_query`) -/

/-- `RNADesignAssistant._classify_query`, returning
`(state["response_type"], state["confidence"])`.  The language-model call is
an oracle: `some content` is a successful `self.llm.invoke` returning
`content`, `none` is the call raising an exception.  Confidences `0.9`,
`0.7` and `0.5` are the rationals `9/10`, `7/10`, `1/2`. -/
def classifyQuery (llmResponse : Option String) : String × ℚ :=
  match llmResponse with
  | some content =>
    let category := content.trim.toLower
    let category :=
      if category = "rna_design" ∨ category = "general_bioinfo" ∨ category = "off_topic" then
        category
      else "off_topic"
    (category, if category = "rna_design" then 9/10 else 7/10)
  | none => ("off_topic", 1/2)

/-- **C5.** Classification coverage and fail-closed behaviour: every outcome
of the generation-service oracle yields a `response_type` in
`{rna_design, general_bioinfo, off_topic}`, and when the call raises, the
result is `off_topic` with confidence at most `0.5`. -/
theorem classification_coverage_and_fail_closed (llmResponse : Option String) :
    ((classifyQuery llmResponse).1 = "rna_design" ∨
      (classifyQuery llmResponse).1 = "general_bioinfo" ∨
      (classifyQuery llmResponse).1 = "off_topic") ∧
    (llmResponse = none →
      (classifyQuery llmResponse).1 = "off_topic" ∧
      (classifyQuery llmResponse).2 ≤ 1/2) := by
  constructor
  · match llmResponse with
    | none => right; right; rfl
    | some content =>
      by_cases h : content.trim.toLower = "rna_design" ∨
          content.trim.toLower = "general_bioinfo" ∨
          content.trim.toLower = "off_topic"
      · have hq : (classifyQuery (some content)).1 = content.trim.toLower := by
          simp [classifyQuery, h]
        rw [hq]
        exact h
      · right; right
        simp [classifyQuery, h]
  · intro h
    subst h
    exact ⟨rfl, by norm_num [classifyQuery]⟩

/-- Witness for C5 at a concrete input: the failing-call case. -/
theorem classification_coverage_and_fail_closed_witness :
    ((classifyQuery none).1 = "rna_design" ∨
      (classifyQuery none).1 = "general_bioinfo" ∨
      (classifyQuery none).1 = "off_topic") ∧
    ((none : Option String) = none →
      (classifyQuery none).1 = "off_topic" ∧
      (classifyQuery none).2 ≤ 1/2) :=
  classification_coverage_and_fail_closed none

/-! ### Sequence extraction (`RNAAnalysisAgent._extract_sequences_from_text`) -/

/-- The RNA alphabet used by `_extract_sequences_from_text` (`'AUCG'`). -/
def rnaAlphabet : List Char := ['A', 'U', 'C', 'G']

/-- The 20-letter amino-acid alphabet used by `_extract_sequences_from_text`
(`'ACDEFGHIKLMNPQRSTVWY'`). -/
def aminoAlphabet : List Char :=
  ['A', 'C', 'D', 'E', 'F', 'G', 'H', 'I', 'K', 'L', 'M', 'N', 'P', 'Q', 'R',
   'S', 'T', 'V', 'W', 'Y']

/-- `''.join(c.upper() for c in match if c.upper() in alphabet)`: uppercase
every character and keep only those in the given alphabet. -/
def cleanSequence (alphabet : List Char) (m : String) : String :=
  String.mk (m.data.filterMap fun c =>
    if c.toUpper ∈ alphabet then some c.toUpper else none)

/-- The per-pattern collection loop of `_extract_sequences_from_text`:
clean every regex match and keep those that reach the minimum length.  The
regex engine is external, so the concatenated `re.findall` match lists over
the four RNA patterns (resp. three protein patterns) are an oracle input. -/
def collectMatches (alphabet : List Char) (minLen : Nat) (ms : List String) :
    List String :=
  ms.foldl
    (fun acc m =>
      let cleanSeq := cleanSequence alphabet m
      if minLen ≤ cleanSeq.length then acc ++ [cleanSeq] else acc)
    []

/-- The final dedup loop of `_extract_sequences_from_text`: drop later
duplicates, keeping the first occurrence of each sequence. -/
def dedupKeepFirst : List String → List String → List String
  | [], _ => []
  | s :: rest, seen =>
    if s ∈ seen then dedupKeepFirst rest seen
    else s :: dedupKeepFirst rest (s :: seen)

/-- `RNAAnalysisAgent._extract_sequences_from_text`, as a function of the
raw regex match lists: returns the deduplicated `(rna, protein)` sequence
lists (`sequences['rna']`, `sequences['protein']`). -/
def extractSequencesFromText (rnaMatches proteinMatches : List String) :
    List String × List String :=
  (dedupKeepFirst (collectMatches rnaAlphabet 10 rnaMatches) [],
   dedupKeepFirst (collectMatches aminoAlphabet 20 proteinMatches) [])

theorem collectMatches_foldl_sound (alphabet : List Char) (minLen : Nat) :
    ∀ (ms acc : List String),
      (∀ x ∈ acc, minLen ≤ x.length ∧ ∀ c ∈ x.data, c ∈ alphabet) →
      ∀ x ∈ ms.foldl
        (fun acc m =>
          let cleanSeq := cleanSequence alphabet m
          if minLen ≤ cleanSeq.length then acc ++ [cleanSeq] else acc) acc,
        minLen ≤ x.length ∧ ∀ c ∈ x.data, c ∈ alphabet := by
  intro ms
  induction ms with
  | nil => intro acc hacc x hx; exact hacc x hx
  | cons m mrest ih =>
    intro acc hacc x hx
    simp only [List.foldl_cons] at hx
    refine ih _ ?_ x hx
    intro y hy
    simp only at hy
    by_cases hc : minLen ≤ (cleanSequence alphabet m).length
    · simp only [hc, if_true, List.mem_append, List.mem_singleton] at hy
      rcases hy with hy | hy
      · exact hacc y hy
      · subst hy
        refine ⟨hc, ?_⟩
        intro c hcmem
        simp only [cleanSequence, List.mem_filterMap] at hcmem
        rcases hcmem with ⟨d, _, hd⟩
        by_cases hdu : d.toUpper ∈ alphabet
        · simp only [hdu, if_true, Option.some_inj] at hd
          rw [← hd]
          exact hdu
        · simp [hdu] at hd
    · simp only [hc, if_false] at hy
      exact hacc y hy

theorem mem_collectMatches {alphabet : List Char} {minLen : Nat}
    {ms : List String} {s : String}
    (hs : s ∈ collectMatches alphabet minLen ms) :
    minLen ≤ s.length ∧ ∀ c ∈ s.data, c ∈ alphabet :=
  collectMatches_foldl_sound alphabet minLen ms []
    (by intro x hx; cases hx) s hs

theorem dedupKeepFirst_sublist (l : List String) :
    ∀ (seen : List String), (dedupKeepFirst l seen).Sublist l := by
  induction l with
  | nil => intro seen; simp [dedupKeepFirst]
  | cons s rest ih =>
    intro seen
    by_cases h : s ∈ seen
    · simp only [dedupKeepFirst, h, if_true]
      exact (ih seen).cons s
    · simp only [dedupKeepFirst, h, if_false]
      exact (ih (s :: seen)).cons₂ s

theorem dedupKeepFirst_nodup (l : List String) :
    ∀ (seen : List String),
      (dedupKeepFirst l seen).Nodup ∧ ∀ x ∈ dedupKeepFirst l seen, x ∉ seen := by
  induction l with
  | nil => intro seen; exact ⟨List.nodup_nil, by intro x hx; cases hx⟩
  | cons s rest ih =>
    intro seen
    by_cases h : s ∈ seen
    · simp only [dedupKeepFirst, h, if_true]
      exact ih seen
    · simp only [dedupKeepFirst, h, if_false]
      rcases ih (s :: seen) with ⟨hnd, hx⟩
      constructor
      · refine List.nodup_cons.mpr ⟨?_, hnd⟩
        intro hmem
        exact hx s hmem (List.mem_cons_self s seen)
      · intro x hx'
        rcases List.mem_cons.mp hx' with hx' | hx'
        · subst hx'
          exact h
        · intro hxs
          exact hx x hx' (List.mem_cons_of_mem _ hxs)

theorem mem_dedupKeepFirst (l : List String) :
    ∀ (seen : List String) (x : String), x ∈ l → x ∉ seen →
      x ∈ dedupKeepFirst l seen := by
  induction l with
  | nil => intro seen x hx; cases hx
  | cons s rest ih =>
    intro seen x hx hxs
    by_cases h : s ∈ seen
    · simp only [dedupKeepFirst, h, if_true]
      rcases List.mem_cons.mp hx with hx' | hx'
      · subst hx'
        exact absurd h hxs
      · exact ih seen x hx' hxs
    · simp only [dedupKeepFirst, h, if_false]
      rcases List.mem_cons.mp hx with hx' | hx'
      · subst hx'
        exact List.mem_cons_self _ _
      · by_cases hxeq : x = s
        · subst hxeq
          exact List.mem_cons_self _ _
        · refine List.mem_cons_of_mem _ (ih (s :: seen) x hx' ?_)
          intro hmem
          rcases List.mem_cons.mp hmem with h' | h'
          · exact hxeq h'
          · exact hxs h'

/-- **C8.** Entity extraction: every returned RNA sequence is over
`{A, U, C, G}` with length at least 10, every returned protein sequence is
over the 20-letter amino-acid alphabet with length at least 20, and both
returned lists are duplicate-free sublists of the extraction stream that
retain every extracted sequence (first-seen order dedup). -/
theorem entity_extraction_sound (rnaMatches proteinMatches : List String) :
    (∀ s ∈ (extractSequencesFromText rnaMatches proteinMatches).1,
      10 ≤ s.length ∧ ∀ c ∈ s.data, c ∈ rnaAlphabet) ∧
    (∀ s ∈ (extractSequencesFromText rnaMatches proteinMatches).2,
      20 ≤ s.length ∧ ∀ c ∈ s.data, c ∈ aminoAlphabet) ∧
    (extractSequencesFromText rnaMatches proteinMatches).1.Nodup ∧
    (extractSequencesFromText rnaMatches proteinMatches).2.Nodup ∧
    (extractSequencesFromText rnaMatches proteinMatches).1.Sublist
      (collectMatches rnaAlphabet 10 rnaMatches) ∧
    (extractSequencesFromText rnaMatches proteinMatches).2.Sublist
      (collectMatches aminoAlphabet 20 proteinMatches) ∧
    (∀ s ∈ collectMatches rnaAlphabet 10 rnaMatches,
      s ∈ (extractSequencesFromText rnaMatches proteinMatches).1) ∧
    (∀ s ∈ collectMatches aminoAlphabet 20 proteinMatches,
      s ∈ (extractSequencesFromText rnaMatches proteinMatches).2) := by
  refine ⟨?_, ?_, ?_, ?_, ?_, ?_, ?_, ?_⟩
  · intro s hs
    exact mem_collectMatches ((dedupKeepFirst_sublist _ []).mem hs)
  · intro s hs
    exact mem_collectMatches ((dedupKeepFirst_sublist _ []).mem hs)
  · exact (dedupKeepFirst_nodup _ []).1
  · exact (dedupKeepFirst_nodup _ []).1
  · exact dedupKeepFirst_sublist _ []
  · exact dedupKeepFirst_sublist _ []
  · intro s hs
    exact mem_dedupKeepFirst _ [] s hs (by intro h; cases h)
  · intro s hs
    exact mem_dedupKeepFirst _ [] s hs (by intro h; cases h)

/-! ### Tool orchestration (`RNAAnalysisAgent.execute_analysis`, `_call_tool`) -/

/-- Outcome of the `requests.post` call inside `_call_tool`: a response with
a status code and body, a `requests.exceptions.Timeout`, or any other
exception with its message. -/
inductive HttpOutcome where
  | ok (status : Nat) (body : String)
  | timeout
  | exc (msg : String)
deriving DecidableEq, Repr

/-- One catalog entry of `RNAAnalysisAgent._initialize_tools`. -/
structure ToolInfo where
  name : String
  description : String
  endpoint : String
  inputTypes : List String
  outputTypes : List String
  category : String
  requiredParams : List String := []
deriving DecidableEq, Repr

/-- `RNAAnalysisAgent.available_tools`: the static catalog built by
`_initialize_tools` (descriptions abbreviated to their opening words; the
claims only use the keys, names and categories). -/
def availableTools : List (String × ToolInfo) :=
  [("bpfold", ⟨"BPFold", "Deep learning model for RNA secondary structure prediction",
      "/api/bpfold/predict", ["fasta", "text"],
      ["secondary_structure", "base_pairs", "confidence"], "structure_prediction", []⟩),
   ("ufold", ⟨"UFold", "Deep learning-based RNA secondary structure prediction using FCNs",
      "/api/ufold/predict", ["fasta", "text"],
      ["secondary_structure", "ct_format", "bpseq_format"], "structure_prediction", []⟩),
   ("mxfold2", ⟨"MXFold2",
      "Deep learning-based RNA secondary structure prediction with thermodynamic integration",
      "/api/mxfold2/predict", ["fasta", "text"],
      ["secondary_structure", "dot_bracket", "energy"], "structure_prediction", []⟩),
   ("rnaformer", ⟨"RNAformer", "Deep learning model using 2D latent space and axial attention",
      "/api/rnaformer/predict", ["fasta", "text"],
      ["secondary_structure", "dot_bracket", "ct_format"], "structure_prediction", []⟩),
   ("rnamigos2", ⟨"RNAmigos2", "Virtual screening tool for RNA-ligand interaction prediction",
      "/api/rnamigos2/predict", ["mmcif", "smiles"],
      ["interaction_scores", "binding_affinity"], "interaction_prediction", []⟩),
   ("reformer", ⟨"Reformer", "Protein-RNA binding affinity prediction at single-base resolution",
      "/api/reformer/predict", ["rna_sequence", "rbp_name", "cell_line"],
      ["binding_scores", "affinity_prediction"], "interaction_prediction",
      ["rna_sequence", "rbp_name", "cell_line"]⟩),
   ("copra", ⟨"CoPRA", "Protein-RNA binding affinity prediction using language models",
      "/api/copra/predict", ["protein_sequence", "rna_sequence"],
      ["binding_affinity", "confidence_score"], "interaction_prediction", []⟩),
   ("deeprpi", ⟨"DeepRPI", "Deep learning-based RNA-protein interaction prediction",
      "/api/deeprpi/predict", ["protein_sequence", "rna_sequence"],
      ["interaction_prediction", "probability", "attention_maps"],
      "interaction_prediction", []⟩),
   ("mol2aptamer", ⟨"Mol2Aptamer", "Generate RNA aptamers from small molecule SMILES",
      "/api/mol2aptamer/predict", ["smiles"],
      ["rna_sequences", "aptamer_candidates"], "de_novo_design", []⟩),
   ("rnaflow", ⟨"RNAFlow", "Protein-conditioned RNA sequence-structure design",
      "/api/rnaflow/predict", ["protein_sequence", "protein_coordinates", "rna_length"],
      ["rna_sequences", "rna_structures"], "de_novo_design", []⟩),
   ("rnaframeflow", ⟨"RNA-FrameFlow", "3D RNA backbone structure design using SE(3) flow matching",
      "/api/rnaframeflow/predict", ["structure_length", "num_structures"],
      ["rna_structures", "3d_coordinates", "pdb_files"], "de_novo_design", []⟩),
   ("ribodiffusion", ⟨"RiboDiffusion", "RNA inverse folding from protein structures using diffusion",
      "/api/ribodiffusion/predict", ["pdb"],
      ["rna_sequences", "fasta_files"], "de_novo_design", []⟩),
   ("rnampnn", ⟨"RNAMPNN", "RNA sequence recovery from 3D structure using graph neural networks",
      "/api/rnampnn/predict", ["pdb"],
      ["rna_sequence", "confidence_scores"], "de_novo_design", []⟩)]

/-- The per-tool result dict produced by `_call_tool`: on a 200 response it
carries the decoded payload and the tool's category, otherwise `success` is
false and `error` holds the failure message. -/
structure ToolResult where
  success : Bool
  data : String := ""
  error : String := ""
  toolName : String
  category : String := ""
deriving DecidableEq, Repr

/-- Python `str.lower()` over the characters of a string (a kernel-reducible
stand-in for `String.toLower`). -/
def strToLower (s : String) : String := String.mk (s.data.map Char.toLower)

instance {ε α : Type} [DecidableEq ε] [DecidableEq α] : DecidableEq (Except ε α) := fun x y => by
  cases x with
  | ok a =>
    cases y with
    | ok b =>
      exact if h : a = b then isTrue (by rw [h]) else
        isFalse (by intro hh; injection hh; contradiction)
    | error f => exact isFalse (by intro hh; cases hh)
  | error e =>
    cases y with
    | ok b => exact isFalse (by intro hh; cases hh)
    | error f =>
      exact if h : e = f then isTrue (by rw [h]) else
        isFalse (by intro hh; injection hh; contradiction)

/-- One uploaded-file dict as consumed by `_prepare_tool_request`
(`{"name": ..., "type": ..., "content": ...}`). -/
structure UploadedFile where
  name : String
  ftype : String
  content : String
deriving DecidableEq, Repr

/-- The `detailed_sequences` dict produced by
`_extract_sequences_from_text`: both keys are always present (possibly with
empty lists).  `none` stands for `None` / a falsy dict, `some` for a truthy
dict. -/
structure DetailedSeqs where
  rna : List String
  protein : List String
deriving DecidableEq, Repr

/-- A JSON value of a tool request payload. -/
inductive JsonVal where
  | str (s : String)
  | num (n : Int)
  | strList (xs : List String)
deriving DecidableEq, Repr

/-- A tool request payload (`request_data`), a JSON object in insertion
order. -/
abbrev RequestData := List (String × JsonVal)

/-- The hard-coded default protein sequence of `_prepare_tool_request`. -/
def defaultProteinSequence : String :=
  "MKTVRQERLKSIVRILERSKEPVSGAQLAEELSVSRQVIVQDIAYLRSLGYNIVATPRGYVLAGG"

/-- Python `str.replace('U', 'T')` (single-character replacement). -/
def replaceUT (s : String) : String :=
  String.mk (s.data.map fun c => if c = 'U' then 'T' else c)

/-- Python `pattern in s` for a non-empty pattern. -/
def strContainsSub (s pattern : String) : Bool := (s.splitOn pattern).length > 1

/-- Python `xs[0]` on a list: the head, or an `IndexError` on an empty
list. -/
def pyHead (xs : List String) : Except String String :=
  match xs with
  | [] => .error "list index out of range"
  | x :: _ => .ok x

/-- `RNAAnalysisAgent._prepare_tool_request`.  The `[0]` indexing on
`detailed_sequences.get('rna', ...)` and `.get('protein', ...)` (whose
defaults are never used because `_extract_sequences_from_text` always
populates both keys) raises `IndexError` when the corresponding list is
empty; that exception is the `.error` case. -/
def prepareToolRequest (toolId : String) (sequences : List String)
    (files : List UploadedFile) (detailed : Option DetailedSeqs) :
    Except String RequestData :=
  if toolId = "bpfold" ∨ toolId = "ufold" ∨ toolId = "mxfold2" ∨ toolId = "rnaformer" then
    if sequences ≠ [] then
      .ok ([("sequences", .strList sequences), ("input_type", .str "text")] ++
        (if toolId = "bpfold" then [("output_format", .str "dbn")] else []))
    else
      match files.find? (fun fi => fi.ftype == "text/plain") with
      | some fi => .ok [("sequences", .strList [fi.content]), ("input_type", .str "text")]
      | none => .ok []
  else if toolId = "rnamigos2" then
    match files.find? (fun fi => fi.name.endsWith ".cif") with
    | some fi =>
      .ok [("structure_file", .str fi.content), ("ligands", .strList ["C1=CC=CC=C1"])]
    | none => .ok []
  else if toolId = "reformer" then
    if sequences ≠ [] then
      match detailed with
      | some d =>
        match pyHead d.rna with
        | .error e => .error e
        | .ok rnaSequence =>
          .ok [("sequence", .str (replaceUT rnaSequence)),
            ("rbp_name", .str "U2AF2"), ("cell_line", .str "HepG2")]
      | none =>
        .ok [("sequence", .str (replaceUT (sequences.headD ""))),
          ("rbp_name", .str "U2AF2"), ("cell_line", .str "HepG2")]
    else .ok []
  else if toolId = "copra" ∨ toolId = "deeprpi" then
    if sequences ≠ [] then
      match detailed with
      | some d =>
        match pyHead d.rna with
        | .error e => .error e
        | .ok rnaSequence =>
          match pyHead d.protein with
          | .error e => .error e
          | .ok proteinSequence =>
            .ok [("rna_sequence", .str rnaSequence),
              ("protein_sequence", .str proteinSequence)]
      | none =>
        .ok [("rna_sequence", .str (sequences.headD "")),
          ("protein_sequence", .str defaultProteinSequence)]
    else .ok []
  else if toolId = "mol2aptamer" then
    match files.find? (fun fi => strContainsSub (strToLower fi.name) "smiles") with
    | some fi => .ok [("smiles", .str fi.content), ("num_sequences", .num 5)]
    | none => .ok []
  else if toolId = "rnaflow" then
    .ok [("protein_sequence", .str defaultProteinSequence), ("rna_length", .num 50)]
  else if toolId = "rnaframeflow" then
    .ok [("structure_length", .num 30), ("num_structures", .num 3)]
  else if toolId = "ribodiffusion" ∨ toolId = "rnampnn" then
    match files.find? (fun fi => fi.name.endsWith ".pdb") with
    | some fi => .ok [("pdb_content", .str fi.content)]
    | none => .ok []
  else .ok []

/-- `RNAAnalysisAgent._call_tool` as a function of the HTTP oracle.
`_prepare_tool_request` runs before the `try:` block, so an exception it
raises escapes `_call_tool` (the `.error` case); with a prepared payload, a
200 response succeeds and any other status, a timeout, or an exception of
the HTTP call yields `success = False` with the corresponding error
message. -/
def callTool (http : String → RequestData → HttpOutcome) (toolId : String)
    (sequences : List String) (files : List UploadedFile)
    (detailed : Option DetailedSeqs) : Except String ToolResult :=
  let toolInfo := ((availableTools.lookup toolId).getD ⟨"", "", "", [], [], "", []⟩)
  match prepareToolRequest toolId sequences files detailed with
  | .error e => .error e
  | .ok requestData =>
    .ok (match http toolId requestData with
      | .ok status body =>
        if status = 200 then ⟨true, body, "", toolInfo.name, toolInfo.category⟩
        else ⟨false, "", "HTTP " ++ toString status ++ ": " ++ body, toolInfo.name, ""⟩
      | .timeout =>
        ⟨false, "", "Request timeout - analysis took too long", toolInfo.name, ""⟩
      | .exc msg => ⟨false, "", msg, toolInfo.name, ""⟩)

/-- `RNAAnalysisAgent._generate_summary`. -/
def generateSummary (toolResults : List (String × ToolResult)) : String :=
  let successfulTools := (toolResults.filter fun p => p.2.success).map Prod.fst
  let failedTools := (toolResults.filter fun p => !p.2.success).map Prod.fst
  let successParts :=
    if successfulTools = [] then []
    else
      ("Successfully completed analysis using: " ++ String.intercalate ", " successfulTools)
        :: successfulTools.map fun tool =>
          let result := (toolResults.lookup tool).getD ⟨false, "", "", "", ""⟩
          "- " ++ result.toolName ++ " (" ++ result.category ++ "): Analysis completed"
  let failedParts :=
    if failedTools = [] then [] else ["Failed tools: " ++ String.intercalate ", " failedTools]
  let emptyParts := if toolResults = [] then ["No analysis tools were executed"] else []
  String.intercalate "\n" (successParts ++ failedParts ++ emptyParts)

/-- The aggregated result dict of `execute_analysis` (`tool_results` is the
Python dict in insertion order; `errors` collects the messages of the
per-tool `except` branch, reached when `_call_tool` raises out of
`_prepare_tool_request`). -/
structure ExecutionReport where
  success : Bool
  toolResults : List (String × ToolResult)
  summary : String
  error : String := ""
  errors : List String := []
deriving DecidableEq, Repr

/-- `RNAAnalysisAgent.execute_analysis`: with no tools the call fails
early; otherwise every selected tool that exists in the catalog is invoked
in order inside a per-tool `try`: a returned result dict is recorded under
its tool id, an escaping exception is recorded as
`f"Tool {tool_id} failed: {e}"` in `errors` with no `tool_results` entry,
and a summary over `tool_results` is generated either way. -/
def executeAnalysis (http : String → RequestData → HttpOutcome)
    (tools : List String) (sequences : List String) (files : List UploadedFile)
    (detailed : Option DetailedSeqs) : ExecutionReport :=
  if tools = [] then
    ⟨false, [], "No analysis tools could be determined from the request",
      "No tools identified for analysis", []⟩
  else
    let looped := tools.foldl
      (fun (acc : List (String × ToolResult) × List String) toolId =>
        if (availableTools.lookup toolId).isSome then
          match callTool http toolId sequences files detailed with
          | .ok toolResult => (acc.1 ++ [(toolId, toolResult)], acc.2)
          | .error e => (acc.1, acc.2 ++ ["Tool " ++ toolId ++ " failed: " ++ e])
        else acc)
      ([], [])
    ⟨true, looped.1, generateSummary looped.1, "", looped.2⟩

/-- Whether an HTTP oracle outcome is a failure for `_call_tool`
(non-200 status, timeout, or exception). -/
def httpFailed : HttpOutcome → Bool
  | .ok 200 _ => false
  | .ok _ _ => true
  | .timeout => true
  | .exc _ => true

/-- The `tool_results` entry one loop iteration of `execute_analysis`
contributes for a tool id (`none` for non-catalog tools and for tools whose
request preparation raised). -/
def okEntryOf (http : String → RequestData → HttpOutcome) (sequences : List String)
    (files : List UploadedFile) (detailed : Option DetailedSeqs)
    (toolId : String) : Option (String × ToolResult) :=
  if (availableTools.lookup toolId).isSome then
    match callTool http toolId sequences files detailed with
    | .ok toolResult => some (toolId, toolResult)
    | .error _ => none
  else none

/-- The `errors` entry one loop iteration of `execute_analysis` contributes
for a tool id. -/
def errEntryOf (http : String → RequestData → HttpOutcome) (sequences : List String)
    (files : List UploadedFile) (detailed : Option DetailedSeqs)
    (toolId : String) : Option String :=
  if (availableTools.lookup toolId).isSome then
    match callTool http toolId sequences files detailed with
    | .ok _ => none
    | .error e => some ("Tool " ++ toolId ++ " failed: " ++ e)
  else none

theorem foldl_toolResults_spec (http : String → RequestData → HttpOutcome)
    (sequences : List String) (files : List UploadedFile)
    (detailed : Option DetailedSeqs) :
    ∀ (tools : List String) (acc : List (String × ToolResult) × List String),
      tools.foldl
        (fun (acc : List (String × ToolResult) × List String) toolId =>
          if (availableTools.lookup toolId).isSome then
            match callTool http toolId sequences files detailed with
            | .ok toolResult => (acc.1 ++ [(toolId, toolResult)], acc.2)
            | .error e => (acc.1, acc.2 ++ ["Tool " ++ toolId ++ " failed: " ++ e])
          else acc)
        acc =
      (acc.1 ++ tools.filterMap (okEntryOf http sequences files detailed),
       acc.2 ++ tools.filterMap (errEntryOf http sequences files detailed)) := by
  intro tools
  induction tools with
  | nil => intro acc; simp
  | cons t ts ih =>
    intro acc
    by_cases hc : (availableTools.lookup t).isSome
    · match hcall : callTool http t sequences files detailed with
      | .ok r =>
        simp only [List.foldl_cons, hc, if_true, hcall, ih, List.filterMap_cons,
          okEntryOf, errEntryOf]
        simp [hc, hcall]
      | .error e =>
        simp only [List.foldl_cons, hc, if_true, hcall, ih, List.filterMap_cons,
          okEntryOf, errEntryOf]
        simp [hc, hcall]
    · simp only [List.foldl_cons, hc, if_false, ih, List.filterMap_cons,
        okEntryOf, errEntryOf]
      simp [hc]

theorem lookup_eq_none_of_forall {β : Type} (l : List (String × β)) (k : String)
    (h : ∀ p ∈ l, p.1 ≠ k) : l.lookup k = none := by
  induction l with
  | nil => rfl
  | cons a rest ih =>
    obtain ⟨ka, va⟩ := a
    have hka : ka ≠ k := h (ka, va) (List.mem_cons_self _ _)
    have hk' : (k == ka) = false := by simpa using fun h' => hka h'.symm
    simp only [List.lookup, hk']
    exact ih fun p hp => h p (List.mem_cons_of_mem _ hp)

/-- An HTTP oracle for the concrete C9 scenarios (never consulted on the
counterexample path, where preparation raises first). -/
def cHttp : String → RequestData → HttpOutcome :=
  fun toolId _ => if toolId = "bpfold" then HttpOutcome.ok 200 "folded"
    else HttpOutcome.timeout

/-- **C9, counterexample.** The claim as stated is false: selecting
`copra` with a sequence extracted from an uploaded file while the message
text yields empty detailed sequence lists makes `_prepare_tool_request`
raise `IndexError` before the HTTP `try:` block, so the failure is recorded
in `errors` and `tool_results` has no entry for the tool at all — not an
entry with `success = false`. -/
theorem tool_failure_isolation_counterexample :
    (executeAnalysis cHttp ["copra"] ["AUGCAUGCAUGC"] []
      (some ⟨[], []⟩)).toolResults = [] ∧
    (executeAnalysis cHttp ["copra"] ["AUGCAUGCAUGC"] []
      (some ⟨[], []⟩)).toolResults.lookup "copra" = none ∧
    (executeAnalysis cHttp ["copra"] ["AUGCAUGCAUGC"] []
      (some ⟨[], []⟩)).errors =
      ["Tool copra failed: list index out of range"] := by
  refine ⟨by decide, by decide, by decide⟩

/-- **C9 (amended).** Tool failure isolation: for a non-empty tool list,
the report succeeds with a summary over `tool_results`; `tool_results` and
`errors` are exactly the per-tool contributions of the selected catalog
tools in list order (so no tool's failure prevents the others from being
invoked); a catalog tool whose call returns a result keeps its own entry; a
failing HTTP outcome after successful preparation yields an entry with
`success = false` and the corresponding error message; and a tool whose
request preparation raises is recorded in `errors` with no `tool_results`
entry. -/
theorem tool_failure_isolation (http : String → RequestData → HttpOutcome)
    (tools : List String) (sequences : List String) (files : List UploadedFile)
    (detailed : Option DetailedSeqs) (t tf tp : String) (rt : ToolResult)
    (rqf : RequestData) (ep : String)
    (hne : tools ≠ [])
    (ht : t ∈ tools) (hcat : (availableTools.lookup t).isSome)
    (hok : callTool http t sequences files detailed = .ok rt)
    (htf : tf ∈ tools) (hcatf : (availableTools.lookup tf).isSome)
    (hprep : prepareToolRequest tf sequences files detailed = .ok rqf)
    (hfail : httpFailed (http tf rqf) = true)
    (htp : tp ∈ tools) (hcatp : (availableTools.lookup tp).isSome)
    (hperr : prepareToolRequest tp sequences files detailed = .error ep) :
    (executeAnalysis http tools sequences files detailed).success = true ∧
    (executeAnalysis http tools sequences files detailed).toolResults =
      tools.filterMap (okEntryOf http sequences files detailed) ∧
    (executeAnalysis http tools sequences files detailed).errors =
      tools.filterMap (errEntryOf http sequences files detailed) ∧
    (executeAnalysis http tools sequences files detailed).summary =
      generateSummary (executeAnalysis http tools sequences files detailed).toolResults ∧
    (t, rt) ∈ (executeAnalysis http tools sequences files detailed).toolResults ∧
    (∃ rf, callTool http tf sequences files detailed = .ok rf ∧
      rf.success = false ∧
      rf.error =
        (match http tf rqf with
         | .ok status body => "HTTP " ++ toString status ++ ": " ++ body
         | .timeout => "Request timeout - analysis took too long"
         | .exc msg => msg) ∧
      (tf, rf) ∈ (executeAnalysis http tools sequences files detailed).toolResults) ∧
    ("Tool " ++ tp ++ " failed: " ++ ep) ∈
      (executeAnalysis http tools sequences files detailed).errors ∧
    (executeAnalysis http tools sequences files detailed).toolResults.lookup tp =
      none := by
  have hspec := foldl_toolResults_spec http sequences files detailed tools ([], [])
  have hres : (executeAnalysis http tools sequences files detailed).toolResults =
      tools.filterMap (okEntryOf http sequences files detailed) := by
    simp only [executeAnalysis, hne, if_false, hspec]
    simp
  have herr : (executeAnalysis http tools sequences files detailed).errors =
      tools.filterMap (errEntryOf http sequences files detailed) := by
    simp only [executeAnalysis, hne, if_false, hspec]
    simp
  have hmem : (t, rt) ∈ (executeAnalysis http tools sequences files detailed).toolResults := by
    rw [hres]
    exact List.mem_filterMap.mpr ⟨t, ht, by simp [okEntryOf, hcat, hok]⟩
  have hcalltp : callTool http tp sequences files detailed = .error ep := by
    simp [callTool, hperr]
  have hfres : ∃ rf, callTool http tf sequences files detailed = .ok rf ∧
      rf.success = false ∧
      rf.error =
        (match http tf rqf with
         | .ok status body => "HTTP " ++ toString status ++ ": " ++ body
         | .timeout => "Request timeout - analysis took too long"
         | .exc msg => msg) ∧
      (tf, rf) ∈ (executeAnalysis http tools sequences files detailed).toolResults := by
    match hh : http tf rqf with
    | .ok status body =>
      have hs : status ≠ 200 := by
        intro h200
        subst h200
        simp [httpFailed, hh] at hfail
      have hcall : callTool http tf sequences files detailed =
          .ok ⟨false, "", "HTTP " ++ toString status ++ ": " ++ body,
            ((availableTools.lookup tf).getD ⟨"", "", "", [], [], "", []⟩).name, ""⟩ := by
        simp [callTool, hprep, hh, hs]
      refine ⟨_, hcall, rfl, rfl, ?_⟩
      rw [hres]
      exact List.mem_filterMap.mpr ⟨tf, htf, by simp [okEntryOf, hcatf, hcall]⟩
    | .timeout =>
      have hcall : callTool http tf sequences files detailed =
          .ok ⟨false, "", "Request timeout - analysis took too long",
            ((availableTools.lookup tf).getD ⟨"", "", "", [], [], "", []⟩).name, ""⟩ := by
        simp [callTool, hprep, hh]
      refine ⟨_, hcall, rfl, rfl, ?_⟩
      rw [hres]
      exact List.mem_filterMap.mpr ⟨tf, htf, by simp [okEntryOf, hcatf, hcall]⟩
    | .exc msg =>
      have hcall : callTool http tf sequences files detailed =
          .ok ⟨false, "", msg,
            ((availableTools.lookup tf).getD ⟨"", "", "", [], [], "", []⟩).name, ""⟩ := by
        simp [callTool, hprep, hh]
      refine ⟨_, hcall, rfl, rfl, ?_⟩
      rw [hres]
      exact List.mem_filterMap.mpr ⟨tf, htf, by simp [okEntryOf, hcatf, hcall]⟩
  have herrmem : ("Tool " ++ tp ++ " failed: " ++ ep) ∈
      (executeAnalysis http tools sequences files detailed).errors := by
    rw [herr]
    exact List.mem_filterMap.mpr ⟨tp, htp, by simp [errEntryOf, hcatp, hcalltp]⟩
  have hlooknone : (executeAnalysis http tools sequences files
      detailed).toolResults.lookup tp = none := by
    rw [hres]
    refine lookup_eq_none_of_forall _ _ ?_
    intro p hp
    rcases List.mem_filterMap.mp hp with ⟨t', _, hent⟩
    simp only [okEntryOf] at hent
    by_cases hc' : (availableTools.lookup t').isSome
    · simp only [hc', if_true] at hent
      match hcall' : callTool http t' sequences files detailed with
      | .ok r' =>
        simp only [hcall', Option.some_inj] at hent
        intro hkey
        rw [← hent] at hkey
        simp only at hkey
        rw [hkey] at hcall'
        rw [hcalltp] at hcall'
        cases hcall'
      | .error e' => simp [hcall'] at hent
    · simp [hc'] at hent
  exact ⟨by simp [executeAnalysis, hne], hres, herr,
    by simp [executeAnalysis, hne], hmem, hfres, herrmem, hlooknone⟩

/-- Witness for C9: three tools over a file-extracted sequence with empty
detailed lists — `bpfold` succeeds, `ufold` prepares but times out and
keeps a failed entry, `copra` raises during preparation and lands in
`errors` with no entry. -/
theorem tool_failure_isolation_witness :
    (["bpfold", "ufold", "copra"] : List String) ≠ [] ∧
    "bpfold" ∈ (["bpfold", "ufold", "copra"] : List String) ∧
    (availableTools.lookup "bpfold").isSome ∧
    callTool cHttp "bpfold" ["AUGCAUGCAUGC"] [] (some ⟨[], []⟩) =
      .ok ⟨true, "folded", "", "BPFold", "structure_prediction"⟩ ∧
    "ufold" ∈ (["bpfold", "ufold", "copra"] : List String) ∧
    (availableTools.lookup "ufold").isSome ∧
    prepareToolRequest "ufold" ["AUGCAUGCAUGC"] [] (some ⟨[], []⟩) =
      .ok [("sequences", .strList ["AUGCAUGCAUGC"]), ("input_type", .str "text")] ∧
    httpFailed (cHttp "ufold"
      [("sequences", .strList ["AUGCAUGCAUGC"]), ("input_type", .str "text")]) = true ∧
    "copra" ∈ (["bpfold", "ufold", "copra"] : List String) ∧
    (availableTools.lookup "copra").isSome ∧
    prepareToolRequest "copra" ["AUGCAUGCAUGC"] [] (some ⟨[], []⟩) =
      .error "list index out of range" ∧
    ((executeAnalysis cHttp ["bpfold", "ufold", "copra"] ["AUGCAUGCAUGC"] []
        (some ⟨[], []⟩)).success = true ∧
     (executeAnalysis cHttp ["bpfold", "ufold", "copra"] ["AUGCAUGCAUGC"] []
        (some ⟨[], []⟩)).toolResults =
      (["bpfold", "ufold", "copra"] : List String).filterMap
        (okEntryOf cHttp ["AUGCAUGCAUGC"] [] (some ⟨[], []⟩)) ∧
     (executeAnalysis cHttp ["bpfold", "ufold", "copra"] ["AUGCAUGCAUGC"] []
        (some ⟨[], []⟩)).errors =
      (["bpfold", "ufold", "copra"] : List String).filterMap
        (errEntryOf cHttp ["AUGCAUGCAUGC"] [] (some ⟨[], []⟩)) ∧
     (executeAnalysis cHttp ["bpfold", "ufold", "copra"] ["AUGCAUGCAUGC"] []
        (some ⟨[], []⟩)).summary =
      generateSummary (executeAnalysis cHttp ["bpfold", "ufold", "copra"]
        ["AUGCAUGCAUGC"] [] (some ⟨[], []⟩)).toolResults ∧
     ("bpfold", (⟨true, "folded", "", "BPFold", "structure_prediction"⟩ : ToolResult)) ∈
      (executeAnalysis cHttp ["bpfold", "ufold", "copra"] ["AUGCAUGCAUGC"] []
        (some ⟨[], []⟩)).toolResults ∧
     (∃ rf, callTool cHttp "ufold" ["AUGCAUGCAUGC"] [] (some ⟨[], []⟩) = .ok rf ∧
       rf.success = false ∧
       rf.error =
         (match cHttp "ufold"
            [("sequences", .strList ["AUGCAUGCAUGC"]), ("input_type", .str "text")] with
          | HttpOutcome.ok status body => "HTTP " ++ toString status ++ ": " ++ body
          | HttpOutcome.timeout => "Request timeout - analysis took too long"
          | HttpOutcome.exc msg => msg) ∧
       ("ufold", rf) ∈ (executeAnalysis cHttp ["bpfold", "ufold", "copra"]
         ["AUGCAUGCAUGC"] [] (some ⟨[], []⟩)).toolResults) ∧
     ("Tool " ++ "copra" ++ " failed: " ++ "list index out of range") ∈
      (executeAnalysis cHttp ["bpfold", "ufold", "copra"] ["AUGCAUGCAUGC"] []
        (some ⟨[], []⟩)).errors ∧
     (executeAnalysis cHttp ["bpfold", "ufold", "copra"] ["AUGCAUGCAUGC"] []
        (some ⟨[], []⟩)).toolResults.lookup "copra" = none) :=
  ⟨by decide, by decide, by decide, by decide, by decide, by decide, by decide,
    by decide, by decide, by decide, by decide,
    tool_failure_isolation cHttp ["bpfold", "ufold", "copra"] ["AUGCAUGCAUGC"] []
      (some ⟨[], []⟩) "bpfold" "ufold" "copra"
      ⟨true, "folded", "", "BPFold", "structure_prediction"⟩
      [("sequences", .strList ["AUGCAUGCAUGC"]), ("input_type", .str "text")]
      "list index out of range"
      (by decide) (by decide) (by decide) (by decide) (by decide) (by decide)
      (by decide) (by decide) (by decide) (by decide) (by decide)⟩

/-! ### Document ingestion (`RNADesignRAGSystem.add_document`) -/

/-- One text chunk as produced by `_extract_text_from_pdf` (or converted
from `_process_markdown` output): `{"text", "page", "chunk_id"}`. -/
structure TextChunk where
  text : String
  page : Nat
  chunkId : String
deriving DecidableEq, Repr

/-- One image chunk as produced by `_extract_images_from_pdf`. -/
structure ImageChunk where
  imagePath : String
  description : String
  ocrText : String
  page : Nat
  sourceFile : String
  imageHash : String
deriving DecidableEq, Repr

/-- One entry of the registry dict `self.documents_metadata[doc_hash]`. -/
structure DocRegistryEntry where
  filePath : String
  title : String
  authors : String
  year : Option Int
  doi : String
  abstract : String
  textChunks : Nat
  imageChunks : Nat
deriving DecidableEq, Repr

/-- One stored unit of a ChromaDB collection (id, embedding, document text
and the metadata fields the retrieval path reads). -/
structure CollectionEntry where
  id : String
  embedding : List ℚ
  document : String
  source : String
  page : Nat
deriving DecidableEq, Repr

/-- The persistent state of `RNADesignRAGSystem`: the two ChromaDB
collections plus the sidecar registries (Python dicts modelled as
key/value lists in insertion order). -/
structure RAGState where
  documentsMetadata : List (String × DocRegistryEntry)
  imagesMetadata : List (String × ImageChunk)
  textCollection : List CollectionEntry
  imageCollection : List CollectionEntry
deriving DecidableEq, Repr

/-- Python dict assignment `d[k] = v`: replace in place when the key
exists, append otherwise. -/
def dictInsert {β : Type} (d : List (String × β)) (k : String) (v : β) :
    List (String × β) :=
  if (d.lookup k).isSome then d.map fun p => if p.1 = k then (k, v) else p
  else d ++ [(k, v)]

/-- The filesystem facts `add_document` consults about its argument, as an
oracle record: existence, suffix, MD5 content hash, and what the external
extractors (`_extract_text_from_pdf`, `_extract_images_from_pdf`,
`_process_markdown`) return for this file. -/
structure FileInfo where
  pathStr : String
  isFile : Bool
  suffix : String
  hash : String
  pdfTextChunks : List TextChunk
  pdfImageChunks : List ImageChunk
  mdChunks : List String
  mdTitle : Option String
deriving DecidableEq, Repr

/-- The keyword arguments of `add_document`. -/
structure DocParams where
  title : String := ""
  authors : String := ""
  year : Option Int := none
  doi : String := ""
  abstract : String := ""
deriving DecidableEq, Repr

/-- The text-collection entries built in `add_document`
(`ids = [f"{doc_hash}_{chunk['chunk_id']}" ...]`, zipped with the
embeddings returned by the embedder oracle). -/
def mkTextEntries (docHash source : String) (chunks : List TextChunk)
    (embeddings : List (List ℚ)) : List CollectionEntry :=
  (chunks.zip embeddings).map fun p =>
    ⟨docHash ++ "_" ++ p.1.chunkId, p.2, p.1.text, source, p.1.page⟩

/-- The image-collection entries built in `add_document`
(`ids = [f"{doc_hash}_{chunk['image_hash']}" ...]`). -/
def mkImageEntries (docHash : String) (chunks : List ImageChunk)
    (embeddings : List (List ℚ)) : List CollectionEntry :=
  (chunks.zip embeddings).map fun p =>
    ⟨docHash ++ "_" ++ p.1.imageHash, p.2, p.1.description, p.1.sourceFile, p.1.page⟩

/-- The shared tail of `add_document` after chunk extraction: embed and add
the text chunks, embed and add the image chunks (PDF only), then record the
document in `documents_metadata` and every image in `images_metadata`.
`embedTexts` and `embedImages` are the sentence-transformer and CLIP
oracles; each returns `[]` on an embedding failure, in which case the
corresponding collection is left untouched (`if len(...) > 0`). -/
def ingestChunks (embedTexts : List String → List (List ℚ))
    (embedImages : List String → List (List ℚ)) (σ : RAGState) (f : FileInfo)
    (fileExtension : String) (title : String) (p : DocParams)
    (textChunks : List TextChunk) (imageChunks : List ImageChunk) :
    Bool × RAGState :=
  let σ1 :=
    if textChunks ≠ [] then
      let textEmbeddings := embedTexts (textChunks.map TextChunk.text)
      if textEmbeddings.length > 0 then
        { σ with textCollection :=
            σ.textCollection ++ mkTextEntries f.hash f.pathStr textChunks textEmbeddings }
      else σ
    else σ
  let σ2 :=
    if imageChunks ≠ [] ∧ fileExtension = ".pdf" then
      let imageEmbeddings := embedImages (imageChunks.map ImageChunk.imagePath)
      if imageEmbeddings.length > 0 then
        { σ1 with imageCollection :=
            σ1.imageCollection ++ mkImageEntries f.hash imageChunks imageEmbeddings }
      else σ1
    else σ1
  let σ3 := { σ2 with
    documentsMetadata :=
      dictInsert σ2.documentsMetadata f.hash
        ⟨f.pathStr, title, p.authors, p.year, p.doi, p.abstract,
          textChunks.length, imageChunks.length⟩ }
  let σ4 := { σ3 with
    imagesMetadata :=
      imageChunks.foldl (fun d chunk => dictInsert d chunk.imageHash chunk)
        σ3.imagesMetadata }
  (true, σ4)

/-- `RNADesignRAGSystem.add_document`: reject missing files and
non-PDF/Markdown suffixes, return `True` immediately when the content hash
is already registered, reject documents yielding no text chunks, and
otherwise index the chunks and register the document. -/
def addDocument (embedTexts : List String → List (List ℚ))
    (embedImages : List String → List (List ℚ)) (σ : RAGState) (f : FileInfo)
    (p : DocParams) : Bool × RAGState :=
  if !f.isFile then (false, σ)
  else
    let fileExtension := strToLower f.suffix
    if ¬(fileExtension = ".pdf" ∨ fileExtension = ".md") then (false, σ)
    else if (σ.documentsMetadata.lookup f.hash).isSome then (true, σ)
    else if fileExtension = ".pdf" then
      if f.pdfTextChunks = [] then (false, σ)
      else
        ingestChunks embedTexts embedImages σ f fileExtension p.title p
          f.pdfTextChunks f.pdfImageChunks
    else
      if f.mdChunks = [] then (false, σ)
      else
        let textChunks := (f.mdChunks.enum.map fun q =>
          (⟨q.2, 0, toString q.1⟩ : TextChunk))
        let title := if p.title = "" then (f.mdTitle.getD p.title) else p.title
        ingestChunks embedTexts embedImages σ f fileExtension title p textChunks []

/-- **C10.** Invalid inputs are rejected without side effects: when the
path is not a regular file or the lowercased suffix is neither `.pdf` nor
`.md`, `add_document` returns `False` and leaves the registries and both
collections exactly as they were. -/
theorem add_document_rejects_invalid (embedTexts embedImages : List String → List (List ℚ))
    (σ : RAGState) (f : FileInfo) (p : DocParams)
    (h : f.isFile = false ∨
      ¬(strToLower f.suffix = ".pdf" ∨ strToLower f.suffix = ".md")) :
    addDocument embedTexts embedImages σ f p = (false, σ) := by
  rcases h with h | h
  · simp [addDocument, h]
  · by_cases hf : f.isFile
    · simp [addDocument, hf, h]
    · simp [addDocument, hf]

/-- Witness for C10: a concrete `.txt` file is rejected and the state is
untouched. -/
theorem add_document_rejects_invalid_witness :
    ((⟨"notes.txt", true, ".txt", "h1", [], [], [], none⟩ : FileInfo).isFile = false ∨
      ¬(strToLower (⟨"notes.txt", true, ".txt", "h1", [], [], [], none⟩ : FileInfo).suffix = ".pdf" ∨
        strToLower (⟨"notes.txt", true, ".txt", "h1", [], [], [], none⟩ : FileInfo).suffix = ".md")) ∧
    addDocument (fun ts => ts.map fun _ => [1]) (fun ts => ts.map fun _ => [1])
      ⟨[], [], [], []⟩ ⟨"notes.txt", true, ".txt", "h1", [], [], [], none⟩ {} =
      (false, ⟨[], [], [], []⟩) :=
  ⟨by decide,
    add_document_rejects_invalid _ _ _ _ _ (by decide)⟩

theorem dictInsert_of_lookup_none {β : Type} (d : List (String × β)) (k : String)
    (v : β) (h : d.lookup k = none) : dictInsert d k v = d ++ [(k, v)] := by
  simp [dictInsert, h]

theorem lookup_append_single {β : Type} (d : List (String × β)) (k : String)
    (v : β) (h : d.lookup k = none) : (d ++ [(k, v)]).lookup k = some v := by
  induction d with
  | nil => simp [List.lookup]
  | cons a rest ih =>
    obtain ⟨ka, va⟩ := a
    by_cases hk : k = ka
    · subst hk
      simp [List.lookup] at h
    · have hk' : (k == ka) = false := by simpa using hk
      simp only [List.cons_append, List.lookup, hk']
      exact ih (by simpa [List.lookup, hk'] using h)

theorem countP_key_zero {β : Type} (d : List (String × β)) (k : String)
    (h : d.lookup k = none) : (d.countP fun q => q.1 == k) = 0 := by
  induction d with
  | nil => rfl
  | cons a rest ih =>
    obtain ⟨ka, va⟩ := a
    by_cases hk : k = ka
    · subst hk
      simp [List.lookup] at h
    · have hk' : (k == ka) = false := by simpa using hk
      have hk'' : (ka == k) = false := by simpa using fun h' => hk h'.symm
      have hrest : rest.lookup k = none := by
        simpa [List.lookup, hk'] using h
      rw [List.countP_cons]
      simp [hk'', ih hrest]

theorem countP_dictInsert_new {β : Type} (d : List (String × β)) (k : String)
    (v : β) (h : d.lookup k = none) :
    ((dictInsert d k v).countP fun q => q.1 == k) = 1 := by
  rw [dictInsert_of_lookup_none d k v h, List.countP_append, countP_key_zero d k h]
  simp

theorem ingestChunks_spec (embedTexts embedImages : List String → List (List ℚ))
    (σ : RAGState) (f : FileInfo) (fileExtension title : String) (p : DocParams)
    (textChunks : List TextChunk) (imageChunks : List ImageChunk) :
    (ingestChunks embedTexts embedImages σ f fileExtension title p
        textChunks imageChunks).1 = true ∧
    (ingestChunks embedTexts embedImages σ f fileExtension title p
        textChunks imageChunks).2.documentsMetadata =
      dictInsert σ.documentsMetadata f.hash
        ⟨f.pathStr, title, p.authors, p.year, p.doi, p.abstract,
          textChunks.length, imageChunks.length⟩ := by
  constructor
  · simp only [ingestChunks]
  · simp only [ingestChunks]
    split_ifs <;> rfl

/-- `add_document` on an already-registered hash is a no-op returning
`True` (the early `doc_hash in self.documents_metadata` branch). -/
theorem addDocument_existing (embedTexts embedImages : List String → List (List ℚ))
    (σ : RAGState) (f : FileInfo) (p : DocParams)
    (hfile : f.isFile = true)
    (hext : strToLower f.suffix = ".pdf" ∨ strToLower f.suffix = ".md")
    (hsome : (σ.documentsMetadata.lookup f.hash).isSome = true) :
    addDocument embedTexts embedImages σ f p = (true, σ) := by
  have hc1 : (!f.isFile) = false := by rw [hfile]; rfl
  have hc2 : ¬¬(strToLower f.suffix = ".pdf" ∨ strToLower f.suffix = ".md") :=
    not_not_intro hext
  simp only [addDocument, hc1, Bool.false_eq_true, if_false, hc2, hsome]
  simp

/-- **C2.** Ingestion idempotence: if a document hash is new and the first
`add_document` call succeeds, a second call with a file of identical
content (same MD5 hash, valid path and suffix) returns `True`, changes
nothing in either collection or registry, and the registry holds exactly
one entry for that hash. -/
theorem ingestion_idempotent (embedTexts embedImages : List String → List (List ℚ))
    (σ : RAGState) (f f2 : FileInfo) (p p2 : DocParams)
    (h0 : σ.documentsMetadata.lookup f.hash = none)
    (hf2 : f2.isFile = true)
    (hext2 : strToLower f2.suffix = ".pdf" ∨ strToLower f2.suffix = ".md")
    (hsame : f2.hash = f.hash)
    (h1 : (addDocument embedTexts embedImages σ f p).1 = true) :
    addDocument embedTexts embedImages
        (addDocument embedTexts embedImages σ f p).2 f2 p2 =
      (true, (addDocument embedTexts embedImages σ f p).2) ∧
    (((addDocument embedTexts embedImages σ f p).2).documentsMetadata.countP
      fun q => q.1 == f.hash) = 1 := by
  by_cases hf : f.isFile
  case neg => simp [addDocument, hf] at h1
  by_cases hpdf : strToLower f.suffix = ".pdf"
  case pos =>
    by_cases hch : f.pdfTextChunks = []
    · simp [addDocument, hf, h0, hpdf, hch] at h1
    · have heq : addDocument embedTexts embedImages σ f p =
          ingestChunks embedTexts embedImages σ f (strToLower f.suffix) p.title p
            f.pdfTextChunks f.pdfImageChunks := by
        simp [addDocument, hf, h0, hpdf, hch]
      have hkey : ((addDocument embedTexts embedImages σ f p).2).documentsMetadata =
          dictInsert σ.documentsMetadata f.hash
            ⟨f.pathStr, p.title, p.authors, p.year, p.doi, p.abstract,
              f.pdfTextChunks.length, f.pdfImageChunks.length⟩ := by
        rw [heq]
        exact (ingestChunks_spec _ _ _ _ _ _ _ _ _).2
      have hlook1 : (((addDocument embedTexts embedImages σ f p).2).documentsMetadata.lookup
          f2.hash) = some ⟨f.pathStr, p.title, p.authors, p.year, p.doi, p.abstract,
            f.pdfTextChunks.length, f.pdfImageChunks.length⟩ := by
        rw [hsame, hkey, dictInsert_of_lookup_none _ _ _ h0]
        exact lookup_append_single _ _ _ h0
      refine ⟨?_, ?_⟩
      · exact addDocument_existing _ _ _ _ _ hf2 hext2 (by rw [hlook1]; rfl)
      · rw [hkey]
        exact countP_dictInsert_new _ _ _ h0
  case neg =>
    by_cases hmd : strToLower f.suffix = ".md"
    case neg => simp [addDocument, hf, hpdf, hmd] at h1
    by_cases hch : f.mdChunks = []
    · simp [addDocument, hf, h0, hpdf, hmd, hch] at h1
    · have heq : addDocument embedTexts embedImages σ f p =
          ingestChunks embedTexts embedImages σ f (strToLower f.suffix)
            (if p.title = "" then (f.mdTitle.getD p.title) else p.title) p
            (f.mdChunks.enum.map fun q => (⟨q.2, 0, toString q.1⟩ : TextChunk)) [] := by
        simp [addDocument, hf, h0, hpdf, hmd, hch]
      have hkey : ((addDocument embedTexts embedImages σ f p).2).documentsMetadata =
          dictInsert σ.documentsMetadata f.hash
            ⟨f.pathStr, (if p.title = "" then (f.mdTitle.getD p.title) else p.title),
              p.authors, p.year, p.doi, p.abstract,
              (f.mdChunks.enum.map fun q => (⟨q.2, 0, toString q.1⟩ : TextChunk)).length,
              ([] : List ImageChunk).length⟩ := by
        rw [heq]
        exact (ingestChunks_spec _ _ _ _ _ _ _ _ _).2
      have hlook1 : (((addDocument embedTexts embedImages σ f p).2).documentsMetadata.lookup
          f2.hash) = some ⟨f.pathStr,
            (if p.title = "" then (f.mdTitle.getD p.title) else p.title),
            p.authors, p.year, p.doi, p.abstract,
            (f.mdChunks.enum.map fun q => (⟨q.2, 0, toString q.1⟩ : TextChunk)).length,
            ([] : List ImageChunk).length⟩ := by
        rw [hsame, hkey, dictInsert_of_lookup_none _ _ _ h0]
        exact lookup_append_single _ _ _ h0
      refine ⟨?_, ?_⟩
      · exact addDocument_existing _ _ _ _ _ hf2 hext2 (by rw [hlook1]; rfl)
      · rw [hkey]
        exact countP_dictInsert_new _ _ _ h0

/-- Constant embedder oracle used by concrete ingestion examples. -/
def wEmbed : List String → List (List ℚ) := fun ts => ts.map fun _ => [1]

/-- A concrete one-chunk Markdown file for ingestion examples. -/
def wFile : FileInfo := ⟨"doc.md", true, ".md", "h1", [], [], ["hello"], none⟩

/-- An empty RAG state for ingestion examples. -/
def wState : RAGState := ⟨[], [], [], []⟩

/-- Witness for C2: ingesting a concrete Markdown file twice. -/
theorem ingestion_idempotent_witness :
    wState.documentsMetadata.lookup wFile.hash = none ∧
    wFile.isFile = true ∧
    (strToLower wFile.suffix = ".pdf" ∨ strToLower wFile.suffix = ".md") ∧
    wFile.hash = wFile.hash ∧
    (addDocument wEmbed wEmbed wState wFile {}).1 = true ∧
    (addDocument wEmbed wEmbed (addDocument wEmbed wEmbed wState wFile {}).2 wFile {} =
      (true, (addDocument wEmbed wEmbed wState wFile {}).2) ∧
     (((addDocument wEmbed wEmbed wState wFile {}).2).documentsMetadata.countP
       fun q => q.1 == wFile.hash) = 1) :=
  ⟨rfl, rfl, by decide, rfl, by decide,
    ingestion_idempotent wEmbed wEmbed wState wFile wFile {} {} rfl rfl (by decide)
      rfl (by decide)⟩

/-! ### Retrieval (`RNADesignRAGSystem.search_documents`) -/

/-- The metadata fields of a stored unit that the retrieval and citation
paths read. -/
structure UnitMeta where
  source : String
  page : Nat
  title : String
  authors : String
  year : Int
  doi : String
deriving DecidableEq, Repr

/-- One `(document, metadata, distance)` triple returned by a ChromaDB
`collection.query` call. -/
structure QueryHit where
  document : String
  meta : UnitMeta
  distance : ℚ
deriving DecidableEq, Repr

/-- One result dict built by `search_documents`
(`{"type", "content", "metadata", "score", "rank"}`). -/
structure SearchResult where
  typ : String
  content : String
  meta : UnitMeta
  score : ℚ
  rank : Nat
deriving DecidableEq, Repr

/-- The per-collection result loop of `search_documents`: each hit at
enumeration index `i` becomes a result of the given modality with
`score = 1 - distance` and `rank = i + 1`. -/
def toResults (typ : String) : List QueryHit → Nat → List SearchResult
  | [], _ => []
  | h :: hs, i => ⟨typ, h.document, h.meta, 1 - h.distance, i + 1⟩ :: toResults typ hs (i + 1)

/-- `RNADesignRAGSystem.search_documents`: embed the query once, query the
text collection (and, when requested, the image collection) with that same
vector, merge, sort by score descending (Python's stable `list.sort` with
`reverse=True`, modelled by stable insertion sort), and truncate to `k`.
The embedder and the two collection `query` endpoints are oracles; a
dimension-mismatch failure of the image query is the oracle returning
`[]`. -/
def searchDocuments (embed : String → List ℚ)
    (queryTextC queryImageC : List ℚ → Nat → List QueryHit)
    (query : String) (k : Nat) (includeImages : Bool) : List SearchResult :=
  let queryEmbedding := embed query
  let textResults := toResults "text" (queryTextC queryEmbedding k) 0
  let imageResults :=
    if includeImages then toResults "image" (queryImageC queryEmbedding k) 0 else []
  (List.insertionSort (fun a b => b.score ≤ a.score) (textResults ++ imageResults)).take k

instance : IsTotal SearchResult (fun a b => b.score ≤ a.score) :=
  ⟨fun a b => le_total b.score a.score⟩

instance : IsTrans SearchResult (fun a b => b.score ≤ a.score) :=
  ⟨fun _ _ _ h1 h2 => le_trans h2 h1⟩

theorem mem_toResults {typ : String} {hs : List QueryHit} {i : Nat}
    {r : SearchResult} (hr : r ∈ toResults typ hs i) :
    ∃ h ∈ hs, r.typ = typ ∧ r.content = h.document ∧ r.meta = h.meta ∧
      r.score = 1 - h.distance := by
  induction hs generalizing i with
  | nil => cases hr
  | cons h hs ih =>
    rcases List.mem_cons.mp hr with hr' | hr'
    · subst hr'
      exact ⟨h, List.mem_cons_self _ _, rfl, rfl, rfl, rfl⟩
    · rcases ih hr' with ⟨h', hmem, hprops⟩
      exact ⟨h', List.mem_cons_of_mem _ hmem, hprops⟩

/-- **C7.** Search ranking: `search_documents` returns at most `k` results,
sorted by score in descending order, and every returned result carries the
score `1 − distance` of a hit obtained by querying the text or image
collection with the embedding of the query; the pre-truncation pool
contains one result per hit of the two collection queries. -/
theorem search_ranking (embed : String → List ℚ)
    (queryTextC queryImageC : List ℚ → Nat → List QueryHit)
    (query : String) (k : Nat) :
    (searchDocuments embed queryTextC queryImageC query k true).length ≤ k ∧
    (searchDocuments embed queryTextC queryImageC query k true).length =
      min k ((queryTextC (embed query) k).length + (queryImageC (embed query) k).length) ∧
    List.Sorted (fun a b => b.score ≤ a.score)
      (searchDocuments embed queryTextC queryImageC query k true) ∧
    (∀ r ∈ searchDocuments embed queryTextC queryImageC query k true,
      ∃ h, (h ∈ queryTextC (embed query) k ∧ r.typ = "text" ∨
            h ∈ queryImageC (embed query) k ∧ r.typ = "image") ∧
        r.content = h.document ∧ r.meta = h.meta ∧ r.score = 1 - h.distance) := by
  have hlenToResults : ∀ (typ : String) (hs : List QueryHit) (i : Nat),
      (toResults typ hs i).length = hs.length := by
    intro typ hs
    induction hs with
    | nil => intro i; rfl
    | cons h hs ih =>
      intro i
      simp [toResults, ih]
  refine ⟨?_, ?_, ?_, ?_⟩
  · simp [searchDocuments]
  · simp only [searchDocuments, if_true, List.length_take,
      List.length_insertionSort, List.length_append, hlenToResults]
  · apply List.Pairwise.sublist (List.take_sublist _ _)
    exact List.sorted_insertionSort _ _
  · intro r hr
    have hr1 : r ∈ List.insertionSort (fun a b => b.score ≤ a.score)
        (toResults "text" (queryTextC (embed query) k) 0 ++
         (if true = true then toResults "image" (queryImageC (embed query) k) 0 else [])) := by
      simpa [searchDocuments] using List.mem_of_mem_take hr
    have hr2 := (List.perm_insertionSort
      (fun (a b : SearchResult) => b.score ≤ a.score)
      (toResults "text" (queryTextC (embed query) k) 0 ++
        (if true = true then toResults "image" (queryImageC (embed query) k) 0
         else []))).mem_iff.mp hr1
    simp only [if_true] at hr2
    rcases List.mem_append.mp hr2 with hmem | hmem
    · rcases mem_toResults hmem with ⟨h, hh, ht, hc, hm, hs⟩
      exact ⟨h, Or.inl ⟨hh, ht⟩, hc, hm, hs⟩
    · rcases mem_toResults hmem with ⟨h, hh, ht, hc, hm, hs⟩
      exact ⟨h, Or.inr ⟨hh, ht⟩, hc, hm, hs⟩

/-! ### Context building (`get_rag_context`, `get_multimodal_context`) -/

/-- The dedup key `f"{source}_{page}"` used by both context builders. -/
def srcKey (r : SearchResult) : String :=
  r.meta.source ++ "_" ++ toString r.meta.page

/-- One citation dict built by `RNADesignRAGSystem._format_citation`. -/
structure Citation where
  number : Nat
  text : String
  title : String
  authors : String
  year : Int
  doi : String
  sourceFile : String
  similarityScore : ℚ
  contentPreview : String
deriving DecidableEq, Repr

/-- `RNADesignRAGSystem._format_citation`. -/
def formatCitation (r : SearchResult) (n : Nat) : Citation :=
  let citationText := "[" ++ toString n ++ "] " ++ r.meta.authors ++ " (" ++
    toString r.meta.year ++ "). " ++ r.meta.title ++
    (if r.meta.doi ≠ "" then ". DOI: " ++ r.meta.doi else "")
  ⟨n, citationText, r.meta.title, r.meta.authors, r.meta.year, r.meta.doi,
    r.meta.source, r.score,
    if 200 < r.content.length then r.content.take 200 ++ "..." else r.content⟩

/-- The citation/context loop of `get_rag_context`: walk the ranked
results, skip any result whose `(source, page)` key was already seen,
record a citation for each kept result, and add a numbered context part for
each kept result with non-empty stripped content (only then is the
citation number advanced). -/
def ragBuild : List SearchResult → List String → Nat → List String × List Citation
  | [], _, _ => ([], [])
  | r :: rest, seen, n =>
    if srcKey r ∈ seen then ragBuild rest seen n
    else
      let content := r.content.trim
      if content ≠ "" then
        (("[" ++ toString n ++ "] " ++ content) ::
            (ragBuild rest (srcKey r :: seen) (n + 1)).1,
         formatCitation r n :: (ragBuild rest (srcKey r :: seen) (n + 1)).2)
      else
        ((ragBuild rest (srcKey r :: seen) n).1,
         formatCitation r n :: (ragBuild rest (srcKey r :: seen) n).2)

/-- The fixed instruction block appended by `get_rag_context` around a
non-empty context. -/
def ragContextHeader (query context : String) : String :=
  "RELEVANT LITERATURE FOR QUERY: '" ++ query ++ "'\n\n" ++ context ++
  "\n\nIMPORTANT INSTRUCTIONS:" ++
  "\n- The above literature contains relevant information about the query" ++
  "\n- Use this information to provide a comprehensive and accurate answer" ++
  "\n- Include specific details, metrics, and technical information from the literature" ++
  "\n- If the literature contains tables, figures, or performance data, incorporate these details into your response" ++
  "\n- Base your answer primarily on the provided literature context"

/-- `RNADesignRAGSystem.get_rag_context` (text-only retrieval with
`include_images=False`). -/
def getRagContext (embed : String → List ℚ)
    (queryTextC queryImageC : List ℚ → Nat → List QueryHit)
    (query : String) (maxChunks : Nat) : String × List Citation :=
  let results := searchDocuments embed queryTextC queryImageC query maxChunks false
  if results = [] then ("No relevant documents found in the knowledge base.", [])
  else
    let built := ragBuild results [] 1
    let context := String.intercalate "\n\n" built.1
    let context := if context ≠ "" then ragContextHeader query context else context
    (context, built.2)

/-- The `(source, page)` dedup filter shared by both context builders,
in isolation: keep only the first result for each key. -/
def dedupBySrcPage : List SearchResult → List String → List SearchResult
  | [], _ => []
  | r :: rest, seen =>
    if srcKey r ∈ seen then dedupBySrcPage rest seen
    else r :: dedupBySrcPage rest (srcKey r :: seen)

/-- The citation list of `get_rag_context` as a function of the deduped
result list: one citation per kept result, numbering advancing only on
results with non-empty stripped content. -/
def ragCitationsOf : List SearchResult → Nat → List Citation
  | [], _ => []
  | r :: rest, n =>
    formatCitation r n ::
      ragCitationsOf rest (if r.content.trim ≠ "" then n + 1 else n)

/-- `pathlib.Path(...).stem`: final path component without its last
suffix. -/
def pathStem (s : String) : String :=
  let name := (s.splitOn "/").getLastD ""
  let parts := name.splitOn "."
  if parts.length ≤ 1 then name else String.intercalate "." parts.dropLast

/-- One citation dict built by `get_multimodal_context` (these carry the
`source` and `page` fields directly). -/
structure MCitation where
  text : String
  source : String
  page : Nat
  score : ℚ
  typ : String
deriving DecidableEq, Repr

/-- The citation `get_multimodal_context` builds for one kept result
(`none` for a result of neither modality, which contributes nothing). -/
def mmCitationOf (r : SearchResult) : Option MCitation :=
  if r.typ = "text" then
    some ⟨"Text from " ++ pathStem r.meta.source ++ ", Page " ++ toString r.meta.page,
      r.meta.source, r.meta.page, r.score, "text"⟩
  else if r.typ = "image" then
    some ⟨"Image from " ++ pathStem r.meta.source ++ ", Page " ++ toString r.meta.page,
      r.meta.source, r.meta.page, r.score, "image"⟩
  else none

/-- The result loop of `get_multimodal_context`: returns
`(text_contexts, image_contexts, citations)` with the same
`(source, page)` dedup as `get_rag_context`. -/
def mmBuild : List SearchResult → List String →
    List String × List SearchResult × List MCitation
  | [], _ => ([], [], [])
  | r :: rest, seen =>
    if srcKey r ∈ seen then mmBuild rest seen
    else
      let built := mmBuild rest (srcKey r :: seen)
      if r.typ = "text" then
        (r.content :: built.1, built.2.1,
          (⟨"Text from " ++ pathStem r.meta.source ++ ", Page " ++ toString r.meta.page,
            r.meta.source, r.meta.page, r.score, "text"⟩ : MCitation) :: built.2.2)
      else if r.typ = "image" then
        (built.1, r :: built.2.1,
          (⟨"Image from " ++ pathStem r.meta.source ++ ", Page " ++ toString r.meta.page,
            r.meta.source, r.meta.page, r.score, "image"⟩ : MCitation) :: built.2.2)
      else built

/-- `RNADesignRAGSystem.get_multimodal_context`. -/
def getMultimodalContext (embed : String → List ℚ)
    (queryTextC queryImageC : List ℚ → Nat → List QueryHit)
    (query : String) (maxTextChunks maxImages : Nat) : String × List MCitation :=
  let results :=
    searchDocuments embed queryTextC queryImageC query (maxTextChunks + maxImages) true
  let built := mmBuild results []
  let contextParts :=
    (if built.1 ≠ [] then
      ["TEXT CONTEXT:\n" ++ String.intercalate "\n\n" built.1]
     else []) ++
    (if built.2.1 ≠ [] then
      ["IMAGE CONTEXT:\n" ++
        String.intercalate "\n" (built.2.1.map fun img => "Image: " ++ img.content)]
     else [])
  let context :=
    if contextParts ≠ [] then String.intercalate "\n\n" contextParts
    else "No relevant context found."
  (context, built.2.2)

theorem ragBuild_snd (rs : List SearchResult) :
    ∀ (seen : List String) (n : Nat),
      (ragBuild rs seen n).2 = ragCitationsOf (dedupBySrcPage rs seen) n := by
  induction rs with
  | nil => intro seen n; rfl
  | cons r rest ih =>
    intro seen n
    by_cases h : srcKey r ∈ seen
    · simp only [ragBuild, dedupBySrcPage, h, if_true]
      exact ih seen n
    · by_cases hc : r.content.trim ≠ ""
      · simp only [ragBuild, dedupBySrcPage, ragCitationsOf, h, if_false]
        rw [ih (srcKey r :: seen) (n + 1), if_pos hc, if_pos hc]
      · simp only [ragBuild, dedupBySrcPage, ragCitationsOf, h, if_false]
        rw [ih (srcKey r :: seen) n, if_neg hc, if_neg hc]

theorem dedupBySrcPage_notin_seen (rs : List SearchResult) :
    ∀ (seen : List String), ∀ r ∈ dedupBySrcPage rs seen, srcKey r ∉ seen := by
  induction rs with
  | nil => intro seen r hr; cases hr
  | cons r0 rest ih =>
    intro seen r hr
    by_cases h : srcKey r0 ∈ seen
    · simp only [dedupBySrcPage, h, if_true] at hr
      exact ih seen r hr
    · simp only [dedupBySrcPage, h, if_false] at hr
      rcases List.mem_cons.mp hr with hr' | hr'
      · subst hr'
        exact h
      · intro hmem
        exact ih (srcKey r0 :: seen) r hr' (List.mem_cons_of_mem _ hmem)

theorem dedupBySrcPage_pairwise (rs : List SearchResult) :
    ∀ (seen : List String),
      List.Pairwise (fun a b => srcKey a ≠ srcKey b) (dedupBySrcPage rs seen) := by
  induction rs with
  | nil => intro seen; exact List.Pairwise.nil
  | cons r0 rest ih =>
    intro seen
    by_cases h : srcKey r0 ∈ seen
    · simp only [dedupBySrcPage, h, if_true]
      exact ih seen
    · simp only [dedupBySrcPage, h, if_false]
      refine List.pairwise_cons.mpr ⟨?_, ih (srcKey r0 :: seen)⟩
      intro b hb heq
      exact dedupBySrcPage_notin_seen rest (srcKey r0 :: seen) b hb
        (heq ▸ List.mem_cons_self _ _)

theorem dedupBySrcPage_find (rs : List SearchResult) :
    ∀ (seen : List String), ∀ r ∈ dedupBySrcPage rs seen,
      rs.find? (fun x => srcKey x == srcKey r) = some r := by
  induction rs with
  | nil => intro seen r hr; cases hr
  | cons r0 rest ih =>
    intro seen r hr
    by_cases h : srcKey r0 ∈ seen
    · simp only [dedupBySrcPage, h, if_true] at hr
      have hne : srcKey r0 ≠ srcKey r := by
        intro heq
        exact dedupBySrcPage_notin_seen rest seen r hr (heq ▸ h)
      rw [List.find?_cons_of_neg _ (by simpa using hne)]
      exact ih seen r hr
    · simp only [dedupBySrcPage, h, if_false] at hr
      rcases List.mem_cons.mp hr with hr' | hr'
      · subst hr'
        rw [List.find?_cons_of_pos _ (by simp)]
      · have hnotin := dedupBySrcPage_notin_seen rest (srcKey r0 :: seen) r hr'
        have hne : srcKey r0 ≠ srcKey r := by
          intro heq
          exact hnotin (heq ▸ List.mem_cons_self _ _)
        rw [List.find?_cons_of_neg _ (by simpa using hne)]
        exact ih (srcKey r0 :: seen) r hr'

theorem mmCitationOf_fields (r : SearchResult) (c : MCitation)
    (h : mmCitationOf r = some c) :
    c.source = r.meta.source ∧ c.page = r.meta.page := by
  unfold mmCitationOf at h
  split_ifs at h <;> simp only [Option.some_inj] at h <;> rw [← h]
  · exact ⟨rfl, rfl⟩
  · exact ⟨rfl, rfl⟩

theorem mmBuild_cits (rs : List SearchResult) :
    ∀ (seen : List String),
      (mmBuild rs seen).2.2 = (dedupBySrcPage rs seen).filterMap mmCitationOf := by
  induction rs with
  | nil => intro seen; rfl
  | cons r rest ih =>
    intro seen
    by_cases h : srcKey r ∈ seen
    · simp only [mmBuild, dedupBySrcPage, h, if_true]
      exact ih seen
    · by_cases ht : r.typ = "text"
      · simp only [mmBuild, dedupBySrcPage, h, if_false, ht, if_true,
          List.filterMap_cons, mmCitationOf]
        rw [ih (srcKey r :: seen)]
      · by_cases hi : r.typ = "image"
        · simp only [mmBuild, dedupBySrcPage, h, if_false, ht, if_false, hi,
            if_true, List.filterMap_cons, mmCitationOf]
          rw [ih (srcKey r :: seen)]
          simp
        · simp only [mmBuild, dedupBySrcPage, h, if_false, ht, if_false, hi,
            List.filterMap_cons, mmCitationOf]
          rw [ih (srcKey r :: seen)]

theorem srcKey_eq_of_fields {a b : SearchResult}
    (hs : a.meta.source = b.meta.source) (hp : a.meta.page = b.meta.page) :
    srcKey a = srcKey b := by
  unfold srcKey
  rw [hs, hp]

theorem mm_citations_pairwise (l : List SearchResult)
    (hl : List.Pairwise (fun a b => srcKey a ≠ srcKey b) l) :
    List.Pairwise (fun c d => ¬(c.source = d.source ∧ c.page = d.page))
      (l.filterMap mmCitationOf) := by
  induction l with
  | nil => exact List.Pairwise.nil
  | cons r rest ih =>
    rcases List.pairwise_cons.mp hl with ⟨hr, hrest⟩
    rw [List.filterMap_cons]
    cases hc : mmCitationOf r with
    | none => exact ih hrest
    | some c =>
      refine List.pairwise_cons.mpr ⟨?_, ih hrest⟩
      intro d hd ⟨hsrc, hpage⟩
      rcases List.mem_filterMap.mp hd with ⟨r', hr', hc'⟩
      rcases mmCitationOf_fields r c hc with ⟨hcs, hcp⟩
      rcases mmCitationOf_fields r' d hc' with ⟨hds, hdp⟩
      exact hr r' hr' (srcKey_eq_of_fields (by rw [← hcs, hsrc, hds])
        (by rw [← hcp, hpage, hdp]))

/-- **C3.** Dedup invariant: the citations of `get_rag_context` are exactly
one citation per kept result of the `(source, page)` dedup of the ranked
results, the kept results have pairwise-distinct `(source, page)` keys and
each is the first (highest-ranked) occurrence of its key; likewise the
citations of `get_multimodal_context` carry pairwise-distinct
`(source, page)` pairs, each coming from the first occurrence of its key in
the ranked results. -/
theorem citation_dedup_invariant (embed : String → List ℚ)
    (queryTextC queryImageC : List ℚ → Nat → List QueryHit)
    (query : String) (maxChunks maxTextChunks maxImages : Nat) :
    (getRagContext embed queryTextC queryImageC query maxChunks).2 =
      ragCitationsOf
        (dedupBySrcPage (searchDocuments embed queryTextC queryImageC query maxChunks false) [])
        1 ∧
    List.Pairwise (fun a b => srcKey a ≠ srcKey b)
      (dedupBySrcPage (searchDocuments embed queryTextC queryImageC query maxChunks false) []) ∧
    (∀ r ∈ dedupBySrcPage (searchDocuments embed queryTextC queryImageC query maxChunks false) [],
      (searchDocuments embed queryTextC queryImageC query maxChunks false).find?
        (fun x => srcKey x == srcKey r) = some r) ∧
    List.Pairwise (fun c d => ¬(c.source = d.source ∧ c.page = d.page))
      (getMultimodalContext embed queryTextC queryImageC query maxTextChunks maxImages).2 ∧
    (∀ c ∈ (getMultimodalContext embed queryTextC queryImageC query maxTextChunks maxImages).2,
      ∃ r ∈ searchDocuments embed queryTextC queryImageC query (maxTextChunks + maxImages) true,
        c.source = r.meta.source ∧ c.page = r.meta.page ∧
        (searchDocuments embed queryTextC queryImageC query (maxTextChunks + maxImages) true).find?
          (fun x => srcKey x == srcKey r) = some r) := by
  refine ⟨?_, dedupBySrcPage_pairwise _ [], dedupBySrcPage_find _ [], ?_, ?_⟩
  · by_cases hres : searchDocuments embed queryTextC queryImageC query maxChunks false = []
    · simp [getRagContext, hres, dedupBySrcPage, ragCitationsOf]
    · simp only [getRagContext, hres, if_false]
      exact ragBuild_snd _ [] 1
  · have h2 : (getMultimodalContext embed queryTextC queryImageC query
        maxTextChunks maxImages).2 =
        (dedupBySrcPage (searchDocuments embed queryTextC queryImageC query
          (maxTextChunks + maxImages) true) []).filterMap mmCitationOf := by
      simp only [getMultimodalContext]
      exact mmBuild_cits _ []
    rw [h2]
    exact mm_citations_pairwise _ (dedupBySrcPage_pairwise _ [])
  · intro c hc
    have h2 : (getMultimodalContext embed queryTextC queryImageC query
        maxTextChunks maxImages).2 =
        (dedupBySrcPage (searchDocuments embed queryTextC queryImageC query
          (maxTextChunks + maxImages) true) []).filterMap mmCitationOf := by
      simp only [getMultimodalContext]
      exact mmBuild_cits _ []
    rw [h2] at hc
    rcases List.mem_filterMap.mp hc with ⟨r, hr, hcr⟩
    have hfind := dedupBySrcPage_find _ [] r hr
    rcases mmCitationOf_fields r c hcr with ⟨hcs, hcp⟩
    exact ⟨r, List.mem_of_find?_eq_some hfind, hcs, hcp, hfind⟩

/-! ### Evidence gate (`_retrieve_context`, `_rna_design_expert`,
`_general_bioinfo`) -/

/-- The `has_literature` computation of
`RNADesignAssistant._retrieve_context`, as a function of the retrieved
context string and the citation scores (`citation.get("score", 0)` for each
returned citation): any citation scoring above `-0.5`, else any context
other than empty or the `"No relevant documents found."` sentinel, else any
citation at all. -/
def computeHasLiterature (ragContext : String) (citationScores : List ℚ) : Bool :=
  let hasLiterature := decide (0 < citationScores.length) &&
    citationScores.any fun s => decide (-(1/2 : ℚ) < s)
  let hasLiterature :=
    if !hasLiterature && !(ragContext == "") &&
        !(ragContext == "No relevant documents found.") then true
    else hasLiterature
  if !hasLiterature && decide (0 < citationScores.length) then true else hasLiterature

/-- `prompts.LITERATURE_REFERENCE_REQUIRED.format(query=...)`. -/
def literatureReferenceRequired (query : String) : String :=
  "\nI cannot answer your question: \"" ++ query ++ "\"\n\n" ++
  "**Reason:** No relevant literature found in my knowledge base.\n\n" ++
  "**To get help:**\n" ++
  "- Add relevant PDF/Markdown files to the data directory\n" ++
  "- Ask a more specific question\n" ++
  "- Try a different topic with available literature\n\n" ++
  "I only provide evidence-based answers supported by literature.\n"

/-- `prompts.RESPONSE_TEMPLATES["error_message"]`. -/
def errorMessageTemplate : String :=
  "I apologize, but I encountered an error while processing your request. Please try again."

/-- `RNADesignAssistant._rna_design_expert`, reduced to the appended
response message and whether `self.llm.invoke` was reached: without
literature support and without a successful agent analysis it returns the
literature-reference-required message and never invokes the generation
service; otherwise it invokes the service on the built expert prompt
(context assembly abstracted into the oracle) and appends either the reply
or the error template. -/
def rnaDesignExpert (hasLiterature agentSuccess : Bool) (lastMessage : String)
    (llmResponse : Option String) : String × Bool :=
  if !hasLiterature && !agentSuccess then
    (literatureReferenceRequired lastMessage, false)
  else
    match llmResponse with
    | some content => (content, true)
    | none => (errorMessageTemplate, true)

/-- `RNADesignAssistant._general_bioinfo`, with the same gate structure as
`_rna_design_expert`. -/
def generalBioinfo (hasLiterature agentSuccess : Bool) (lastMessage : String)
    (llmResponse : Option String) : String × Bool :=
  if !hasLiterature && !agentSuccess then
    (literatureReferenceRequired lastMessage, false)
  else
    match llmResponse with
    | some content => (content, true)
    | none => (errorMessageTemplate, true)

/-- **C1.** Evidence gate: when retrieval returned no citations and an
empty context and the agent analysis did not succeed, `has_literature` is
false and both expert handlers return exactly the formatted
literature-reference-required message without invoking the generation
service, regardless of the generation oracle. -/
theorem evidence_gate (ragContext : String) (citationScores : List ℚ)
    (agentSuccess : Bool) (lastMessage : String) (llmResponse : Option String)
    (hcits : citationScores = []) (hctx : ragContext = "")
    (hagent : agentSuccess = false) :
    computeHasLiterature ragContext citationScores = false ∧
    rnaDesignExpert (computeHasLiterature ragContext citationScores) agentSuccess
        lastMessage llmResponse =
      (literatureReferenceRequired lastMessage, false) ∧
    generalBioinfo (computeHasLiterature ragContext citationScores) agentSuccess
        lastMessage llmResponse =
      (literatureReferenceRequired lastMessage, false) := by
  subst hcits
  subst hctx
  subst hagent
  exact ⟨rfl, rfl, rfl⟩

/-- Witness for C1: a concrete query with empty retrieval results and a
live generation oracle that is nevertheless never consulted. -/
theorem evidence_gate_witness :
    ([] : List ℚ) = [] ∧ ("" : String) = "" ∧ false = false ∧
    (computeHasLiterature "" [] = false ∧
     rnaDesignExpert (computeHasLiterature "" []) false
        "How do I design a riboswitch?" (some "ungrounded answer") =
      (literatureReferenceRequired "How do I design a riboswitch?", false) ∧
     generalBioinfo (computeHasLiterature "" []) false
        "How do I design a riboswitch?" (some "ungrounded answer") =
      (literatureReferenceRequired "How do I design a riboswitch?", false)) :=
  ⟨rfl, rfl, rfl,
    evidence_gate "" [] false "How do I design a riboswitch?"
      (some "ungrounded answer") rfl rfl rfl⟩

/-! ### Streaming and cancellation (`_stream_chat.generate_stream`) -/

/-- One server-sent event emitted by the streaming generators. -/
inductive StreamEvent where
  | token (content : String)
  | toolStatus (message : String)
  | complete
  | error (message : String)
deriving DecidableEq, Repr

/-- Outcome of the chunk loop of `generate_stream`: the emitted token
events, the accumulated `full_response`, and the value of
`self.stop_streaming` observed at the memory check after the loop. -/
structure StreamRun where
  events : List StreamEvent
  fullResponse : String
  stopped : Bool
deriving DecidableEq, Repr

/-- The `for chunk in self.llm.stream(...)` loop of `generate_stream`.
`chunks` are the contents of the generation chunks, in order; `flagAt i` is
the value of the cooperative flag `self.stop_streaming` at its `i`-th read
(one read at the top of each iteration, one more at the memory check after
the loop; the flag is only ever set during a stream, so the reads are
monotone).  A chunk with empty content is neither emitted nor
accumulated. -/
def streamLoop (flagAt : Nat → Bool) : List String → Nat → StreamRun
  | [], i => ⟨[], "", flagAt i⟩
  | c :: cs, i =>
    if flagAt i then ⟨[], "", true⟩
    else
      let rest := streamLoop flagAt cs (i + 1)
      if c ≠ "" then ⟨.token c :: rest.events, c ++ rest.fullResponse, rest.stopped⟩
      else rest

/-- `generate_stream`: an optional leading tool-status event, the token
events of the chunk loop, the conditional memory append (skipped when the
stop flag was observed), and the trailing `complete` event. -/
def generateStream (flagAt : Nat → Bool) (agentSuccess : Bool)
    (toolsUsed : List String) (chunks : List String) (mem : List MemoryEntry)
    (userMessage timestamp : String) : List StreamEvent × List MemoryEntry :=
  let statusEvents :=
    if agentSuccess && !(toolsUsed == []) then
      [StreamEvent.toolStatus ("Analysis completed using " ++
        toString toolsUsed.length ++ " tools: " ++ String.intercalate ", " toolsUsed)]
    else []
  let run := streamLoop flagAt chunks 0
  let memAfter :=
    if !run.stopped then addToMemory mem userMessage run.fullResponse timestamp else mem
  (statusEvents ++ run.events ++ [StreamEvent.complete], memAfter)

/-- Whether a stream event is a token event. -/
def isTokenEvent : StreamEvent → Bool
  | .token _ => true
  | _ => false

theorem streamLoop_stopped_true (flagAt : Nat → Bool) :
    ∀ (chunks : List String) (i k : Nat), k ≤ chunks.length →
      flagAt (i + k) = true → (streamLoop flagAt chunks i).stopped = true := by
  intro chunks
  induction chunks with
  | nil =>
    intro i k hk hflag
    have hk0 : k = 0 := Nat.le_zero.mp hk
    subst hk0
    simpa [streamLoop] using hflag
  | cons c cs ih =>
    intro i k hk hflag
    by_cases hi : flagAt i
    · simp [streamLoop, hi]
    · cases k with
      | zero => exact absurd (by simpa using hflag) hi
      | succ k' =>
        have hrest : (streamLoop flagAt cs (i + 1)).stopped = true := by
          refine ih (i + 1) k' (by simpa using hk) ?_
          have : i + 1 + k' = i + (k' + 1) := by omega
          rw [this]
          exact hflag
        by_cases hc : c ≠ "" <;> simp [streamLoop, hi, hc, hrest]

theorem streamLoop_events_bound (flagAt : Nat → Bool) :
    ∀ (chunks : List String) (i k : Nat), flagAt (i + k) = true →
      (streamLoop flagAt chunks i).events.length ≤
        ((chunks.take k).countP fun c => !(c == "")) := by
  intro chunks
  induction chunks with
  | nil => intro i k _; simp [streamLoop]
  | cons c cs ih =>
    intro i k hflag
    by_cases hi : flagAt i
    · simp [streamLoop, hi]
    · cases k with
      | zero => exact absurd (by simpa using hflag) hi
      | succ k' =>
        have hrec := ih (i + 1) k' (by
          have : i + 1 + k' = i + (k' + 1) := by omega
          rw [this]
          exact hflag)
        have hi' : flagAt i = false := by simpa using hi
        by_cases hc : c ≠ ""
        · have hcb : (!(c == "")) = true := by simpa using hc
          simp only [streamLoop, hi', Bool.false_eq_true, if_false,
            List.take_succ_cons, List.countP_cons, hcb]
          rw [if_pos hc]
          simp only [if_true, List.length_cons]
          omega
        · have hcb : (!(c == "")) = false := by simpa using hc
          simp only [streamLoop, hi', Bool.false_eq_true, if_false,
            List.take_succ_cons, List.countP_cons, hcb]
          rw [if_neg hc]
          simpa using hrec

theorem streamLoop_complete (flagAt : Nat → Bool) :
    ∀ (chunks : List String) (i : Nat),
      (∀ j ≤ chunks.length, flagAt (i + j) = false) →
      streamLoop flagAt chunks i =
        ⟨(chunks.filter fun c => !(c == "")).map StreamEvent.token,
          chunks.foldr (fun c acc => c ++ acc) "", false⟩ := by
  intro chunks
  induction chunks with
  | nil =>
    intro i hflag
    have h0 : flagAt i = false := by simpa using hflag 0 (by simp)
    simp [streamLoop, h0]
  | cons c cs ih =>
    intro i hflag
    have h0 : flagAt i = false := by simpa using hflag 0 (by simp)
    have hrest := ih (i + 1) (by
      intro j hj
      have : i + 1 + j = i + (j + 1) := by omega
      rw [this]
      exact hflag (j + 1) (by simpa using hj))
    by_cases hc : c ≠ ""
    · have hcb : (!(c == "")) = true := by simpa using hc
      simp only [streamLoop, h0, Bool.false_eq_true, if_false, hrest,
        List.filter_cons, hcb, List.map_cons, List.foldr_cons]
      rw [if_pos hc]
      simp
    · have hc' : c = "" := not_not.mp hc
      have hcb : (!(c == "")) = false := by simp [hc']
      simp only [streamLoop, h0, Bool.false_eq_true, if_false, hrest,
        List.filter_cons, hcb, List.foldr_cons]
      rw [if_neg hc]
      subst hc'
      simp

/-- **C6.** Cancellation: if the stop flag is set at a read within the
stream then the memory is left unchanged and no more token events are
emitted than generation chunks seen before that read; under a flag that is
never set through the stream, all non-empty chunks are emitted as token
events followed by `complete` and the full concatenated answer is appended
to memory. -/
theorem streaming_cancellation (flagAt flagNever : Nat → Bool)
    (agentSuccess : Bool) (toolsUsed : List String) (chunks : List String)
    (mem : List MemoryEntry) (userMessage timestamp : String) (k : Nat)
    (hk : k ≤ chunks.length) (hflag : flagAt k = true)
    (hnever : ∀ j ≤ chunks.length, flagNever j = false) :
    ((generateStream flagAt agentSuccess toolsUsed chunks mem
        userMessage timestamp).2 = mem ∧
     ((generateStream flagAt agentSuccess toolsUsed chunks mem
        userMessage timestamp).1.countP isTokenEvent ≤
       ((chunks.take k).countP fun c => !(c == "")))) ∧
    ((generateStream flagNever agentSuccess toolsUsed chunks mem
        userMessage timestamp).2 =
      addToMemory mem userMessage (chunks.foldr (fun c acc => c ++ acc) "")
        timestamp ∧
     (generateStream flagNever agentSuccess toolsUsed chunks mem
        userMessage timestamp).1 =
      (if agentSuccess && !(toolsUsed == []) then
        [StreamEvent.toolStatus ("Analysis completed using " ++
          toString toolsUsed.length ++ " tools: " ++
          String.intercalate ", " toolsUsed)]
       else []) ++
      ((chunks.filter fun c => !(c == "")).map StreamEvent.token ++
        [StreamEvent.complete])) := by
  constructor
  · have hstop : (streamLoop flagAt chunks 0).stopped = true :=
      streamLoop_stopped_true flagAt chunks 0 k hk (by simpa using hflag)
    constructor
    · simp [generateStream, hstop]
    · have hbound : (streamLoop flagAt chunks 0).events.length ≤
          ((chunks.take k).countP fun c => !(c == "")) :=
        streamLoop_events_bound flagAt chunks 0 k (by simpa using hflag)
      have hsplit : (generateStream flagAt agentSuccess toolsUsed chunks mem
          userMessage timestamp).1.countP isTokenEvent ≤
          (streamLoop flagAt chunks 0).events.length := by
        simp only [generateStream, List.countP_append]
        have hstatus : ((if agentSuccess && !(toolsUsed == []) then
            [StreamEvent.toolStatus ("Analysis completed using " ++
              toString toolsUsed.length ++ " tools: " ++
              String.intercalate ", " toolsUsed)]
           else []).countP isTokenEvent) = 0 := by
          split_ifs <;> simp [isTokenEvent]
        rw [hstatus]
        have hcomplete : ([StreamEvent.complete].countP isTokenEvent) = 0 := by
          simp [isTokenEvent]
        rw [hcomplete]
        simpa using List.countP_le_length _
      exact le_trans hsplit hbound
  · have hrun := streamLoop_complete flagNever chunks 0 (by
      intro j hj
      simpa using hnever j hj)
    constructor
    · simp [generateStream, hrun]
    · simp [generateStream, hrun]

/-- Witness for C6: three concrete chunks, one flag set at the third read
and one flag never set. -/
theorem streaming_cancellation_witness :
    (2 : Nat) ≤ (["ab", "cd", "ef"] : List String).length ∧
    (decide (2 ≤ 2)) = true ∧
    (∀ j ≤ (["ab", "cd", "ef"] : List String).length,
      ((fun _ => false) : Nat → Bool) j = false) ∧
    (((generateStream (fun i => decide (2 ≤ i)) false [] ["ab", "cd", "ef"] []
        "user msg" "t").2 = [] ∧
      ((generateStream (fun i => decide (2 ≤ i)) false [] ["ab", "cd", "ef"] []
        "user msg" "t").1.countP isTokenEvent ≤
        (((["ab", "cd", "ef"] : List String).take 2).countP fun c => !(c == "")))) ∧
     ((generateStream (fun _ => false) false [] ["ab", "cd", "ef"] []
        "user msg" "t").2 =
       addToMemory [] "user msg"
         ((["ab", "cd", "ef"] : List String).foldr (fun c acc => c ++ acc) "") "t" ∧
      (generateStream (fun _ => false) false [] ["ab", "cd", "ef"] []
        "user msg" "t").1 =
       (if false && !(([] : List String) == []) then
         [StreamEvent.toolStatus ("Analysis completed using " ++
           toString ([] : List String).length ++ " tools: " ++
           String.intercalate ", " ([] : List String))]
        else []) ++
       (((["ab", "cd", "ef"] : List String).filter fun c => !(c == "")).map
           StreamEvent.token ++ [StreamEvent.complete]))) :=
  ⟨by decide, by decide, fun j _ => rfl,
    streaming_cancellation (fun i => decide (2 ≤ i)) (fun _ => false) false []
      ["ab", "cd", "ef"] [] "user msg" "t" 2 (by decide) (by decide)
      (fun j _ => rfl)⟩
